import Mathlib

/-!
# Mox: a verification development of `src/mox.js`

`MoxBuilder` keeps three closure variables (`moduleName`, `moduleFns`,
`postInjectFns`) and the public table `mox.get`.  Registration methods push
callbacks on one of the two queues, `run()` drains them.

The embedding is shallow and defunctionalised:

* JavaScript values are the inductive `Val`; spies are references into a heap
  of `SpyCell`s because the program mutates them after they have been stored;
* every closure the program pushes on a queue is a constructor of `SetupEntry`
  or `PostEntry` carrying the variables the closure captured, and
  `runSetupEntry` / `runPostEntry` are the bodies of those closures;
* whatever lives outside `mox.js` (the injector of the real module, custom
  factories, user functions, the spy framework generation flag) is a field of
  `Host`;
* a `throw` does not roll the state back: every effectful definition returns
  the state reached together with `Except Err _`.

Conventions of the model:

* an object is the list of its own enumerable properties, in the order in
  which they are enumerated; the properties a value has besides those
  (inherited ones such as `toString`, the ones the spy framework puts on a
  spy) are given by the host, and `in` sees them;
* a write to the key `__proto__` creates no own property; the prototype it
  installs is not followed;
* `angular.forEach` treats an object with a numeric `length`, with a
  `forEach` or with a `hasOwnProperty` of its own in a special way; objects
  free of those keys are called `ordinary`, and the statements about maps,
  services and payloads are about ordinary objects;
* callbacks act on `Ext` (registry, provider, template cache, spies); they do
  not call the registration methods of the registrar while `run()` drains the
  queues;
* the spy framework is the one the tests run under, of the generation the
  flag `currentSpec.isJasmine2` tells: `createSpy` makes a fresh spy,
  `createSpyObj` requires a non-empty array of names, a spy of one generation
  does not have the configuration methods of the other;
* `run()` is called inside a running test whose injector does not exist
  yet, so `angular.mock.module` accepts the entries and
  `angular.mock.inject()` loads them in order.
-/

namespace Mox

/-! ## Values -/

/-- JavaScript values, as far as `mox.js` looks into them. -/
inductive Val where
  | undefined : Val
  | null : Val
  | bool (b : Bool) : Val
  | num (n : Int) : Val
  | str (s : String) : Val
  /-- A function supplied from outside: its `name`, an identifier standing for
  its body, and its own enumerable properties. -/
  | fn (name : String) (id : Nat) (props : List (String × Val)) : Val
  /-- A spy made by the spy framework, a reference into the spy heap. -/
  | spy (ref : Nat) : Val
  /-- The closure `function (data) { return angular.extend({}, mock, data); }`
  of `createResourceMock`, with the `mock` it captured. -/
  | ctorFake (mock : List (String × Val)) : Val
  /-- A plain object: own enumerable properties in insertion order. -/
  | obj (props : List (String × Val)) : Val
  | arr (items : List Val) : Val
  deriving Inhabited

/-- Own enumerable properties of an object, in insertion order. -/
abbrev Props := List (String × Val)

/-- What a `throw` carries: `Error(msg)` raised by the program or by the spy
framework, or a `TypeError` raised by the language itself (reading a property
of `undefined`, calling something that is not a function). -/
inductive Err where
  | error (msg : String) : Err
  | typeError : Err
  deriving DecidableEq, Repr, Inhabited

/-- Truthiness, the test behind `!x`, `x || y` and `x ? a : b`. -/
def truthy : Val → Bool
  | .undefined => false
  | .null => false
  | .bool b => b
  | .num n => n != 0
  | .str s => s != ""
  | _ => true

/-- Test `angular.isFunction`, that is `typeof v === "function"`. -/
def isFunction : Val → Bool
  | .fn _ _ _ => true
  | .spy _ => true
  | .ctorFake _ => true
  | _ => false

/-- Test `angular.isString`. -/
def isString : Val → Bool
  | .str _ => true
  | _ => false

mutual
/-- String conversion of a value, as done by `+` with a string and by a
property key.  The text of a function is host dependent; a fixed placeholder
stands for it. -/
def toKey : Val → String
  | .undefined => "undefined"
  | .null => "null"
  | .bool b => if b then "true" else "false"
  | .num n => toString n
  | .str s => s
  | .fn _ _ _ => "function"
  | .spy _ => "function"
  | .ctorFake _ => "function"
  | .obj _ => "[object Object]"
  | .arr items => joinKeys items
/-- The method `Array.prototype.join` with a comma, used by the string
conversion of an array. -/
def joinKeys : List Val → String
  | [] => ""
  | [v] => elemKey v
  | v :: w :: rest => elemKey v ++ "," ++ joinKeys (w :: rest)
/-- An array element inside `join`: `undefined` and `null` give the empty
string. -/
def elemKey : Val → String
  | .undefined => ""
  | .null => ""
  | .bool b => if b then "true" else "false"
  | .num n => toString n
  | .str s => s
  | .fn _ _ _ => "function"
  | .spy _ => "function"
  | .ctorFake _ => "function"
  | .obj _ => "[object Object]"
  | .arr items => joinKeys items
end

/-! ## Objects as association lists -/

/-- Test `k in o` on the own properties of an object. -/
def hasKey (k : String) : Props → Bool
  | [] => false
  | (j, _) :: rest => j == k || hasKey k rest

/-- Property read `o[k]`; a missing property reads as `undefined`. -/
def getKey (k : String) : Props → Val
  | [] => .undefined
  | (j, v) :: rest => if j == k then v else getKey k rest

/-- Property write `o[k] = v`: an existing key keeps its place, a new key goes
last. -/
def setKey (k : String) (v : Val) : Props → Props
  | [] => [(k, v)]
  | (j, w) :: rest => if j == k then (j, v) :: rest else (j, w) :: setKey k v rest

/-- Removal `delete o[k]`. -/
def delKey (k : String) (p : Props) : Props := p.filter (fun kv => !(kv.1 == k))

/-- Assignment `o[k] = v` as the program makes it on a plain object: the key
`__proto__` names the prototype, so that assignment creates no own property. -/
def assign (k : String) (v : Val) (p : Props) : Props :=
  if k == "__proto__" then p else setKey k v p

/-- Keys in enumeration order, `Object.keys`. -/
def keysOf (p : Props) : List String := p.map Prod.fst

/-- Indexed items of an array, as `angular.forEach` hands them to its
iterator: `(value, index)`. -/
def indexed : Nat → List Val → List (Val × Val)
  | _, [] => []
  | i, v :: rest => (v, .num i) :: indexed (i + 1) rest

/-- Names `angular.forEach` skips on a function. -/
def skippedOnFunctions : List String := ["prototype", "length", "name"]

/-- Own enumerable properties that `angular.forEach` visits on an object or
on a function. -/
def ownProps : Val → Props
  | .obj props => props
  | .fn _ _ props => props.filter (fun kv => !(skippedOnFunctions.contains kv.1))
  | _ => []

/-- The pairs `(value, key)` that `angular.forEach(v, iterator)` hands to its
iterator, in order: own properties of an object or function, items of an
array; nothing for `undefined`, `null` and the other primitives.  An object
with a numeric `length`, a `forEach` or a `hasOwnProperty` of its own is
iterated in another way, which is not modelled (see `ordinary`); nor is the
iteration over a string or over a spy. -/
def forEachEntries : Val → List (Val × Val)
  | .arr items => indexed 0 items
  | v => (ownProps v).map (fun kv => (kv.2, Val.str kv.1))

/-- Keys that make `angular.forEach` leave the property-by-property
iteration, and the key that names the prototype. -/
def specialKeys : List String := ["length", "forEach", "hasOwnProperty", "__proto__"]

/-- An object as a literal gives it and as `angular.forEach` iterates it
property by property: distinct keys, none of them special. -/
def ordinary (p : Props) : Prop :=
  (keysOf p).Nodup ∧ ∀ k ∈ specialKeys, k ∉ keysOf p

instance (p : Props) : Decidable (ordinary p) := by
  unfold ordinary
  infer_instance

/-! ## Spies -/

/-- The four configuration calls the program makes on a spy, two per
generation of the spy framework. -/
inductive SpyCall where
  /-- Call `spy.andCallFake(f)`, first generation. -/
  | andCallFake (f : Val) : SpyCall
  /-- Call `spy.andReturn(v)`, first generation. -/
  | andReturn (v : Val) : SpyCall
  /-- Call `spy.and.callFake(f)`, second generation. -/
  | and_callFake (f : Val) : SpyCall
  /-- Call `spy.and.returnValue(v)`, second generation. -/
  | and_returnValue (v : Val) : SpyCall
  deriving Inhabited

/-- What a spy does when it is invoked. -/
inductive Plan where
  /-- A fresh spy: returns `undefined`. -/
  | stub : Plan
  /-- Delegates to the given callable. -/
  | fake (f : Val) : Plan
  /-- Returns the given value. -/
  | returns (v : Val) : Plan
  deriving Inhabited

/-- Whether a configuration call is one of the second generation of the spy
framework (`spy.and.*`). -/
def SpyCall.isSecond : SpyCall → Bool
  | .andCallFake _ => false
  | .andReturn _ => false
  | .and_callFake _ => true
  | .and_returnValue _ => true

/-- Behaviour installed by one configuration call (the documented meaning of
the spy framework's four methods). -/
def SpyCall.plan : SpyCall → Plan
  | .andCallFake f => .fake f
  | .andReturn v => .returns v
  | .and_callFake f => .fake f
  | .and_returnValue v => .returns v

/-- A spy on the heap: its identity string, the configuration calls it has
received (oldest first) and the properties written on the spy function. -/
structure SpyCell where
  identity : String
  calls : List SpyCall
  props : Props
  deriving Inhabited

/-- Current behaviour of a spy: that of the last configuration call. -/
def SpyCell.plan (c : SpyCell) : Plan :=
  match c.calls.getLast? with
  | none => .stub
  | some call => call.plan

/-! ## State outside the registrar queues -/

/-- A call received by the provider handle (`$provide`, or
`$controllerProvider` for controllers). -/
inductive ProviderCall where
  /-- Call `$provide[recipe](name, value)`. -/
  | register (recipe : String) (name : String) (value : Val) : ProviderCall
  /-- Call `$provide.decorator(name, fn)` where `fn` closes over `mock`. -/
  | decorator (name : String) (mock : Val) : ProviderCall
  /-- Call `$provide.factory(name, function () { return {}; })`. -/
  | factoryEmpty (name : String) : ProviderCall
  /-- Call `$controllerProvider.register(name, angular.noop)`. -/
  | controller (name : Val) : ProviderCall
  deriving Inhabited

/-- Everything callbacks act on: the Mock Registry `mox.get`, the calls the
provider has received, the `put`s the template cache has received, and the spy
heap. -/
structure Ext where
  get : Props
  provider : List ProviderCall
  templateCache : List (Val × Val)
  spies : List SpyCell
  deriving Inhabited

/-- Result of an effectful step: the outcome and the state reached (also when
the step throws). -/
abbrev Res (α : Type) := Except Err α × Ext

/-- Sequential iteration with a body that may throw (`angular.forEach` and
`Array.prototype.forEach` with a throwing iterator): the first throw ends the
loop, the effects made so far stay. -/
def forEachM {α : Type} (f : α → Ext → Res Unit) : List α → Ext → Res Unit
  | [], x => (.ok (), x)
  | a :: rest, x =>
    match f a x with
    | (.ok _, x1) => forEachM f rest x1
    | (.error e, x1) => (.error e, x1)

/-! ## The host -/

/-- Everything `mox.js` uses but does not define. -/
structure Host where
  /-- The capability flag `currentSpec.isJasmine2`: whether the spy framework
  that runs the tests, and makes the spies, is of the second generation. -/
  isJasmine2 : Bool
  /-- The call `angular.injector(["ng", "ngMock", moduleName])`: it may throw,
  otherwise it gives the `get` of the injector of the real module. -/
  injector : Val → Except Err (Val → Except Err Val)
  /-- Keys of `mox.factories`. -/
  factories : List String
  /-- The call `mox.factories[name].apply(this, [$provide, ...extra])`. -/
  applyFactory : String → List Val → Ext → Res Unit
  /-- What the module loader does with one argument of `module()` (a module
  name, a configuration function or an object of values). -/
  loadArg : Val → Ext → Res Unit
  /-- Calling a function supplied from outside. -/
  call : Val → List Val → Ext → Res Val
  /-- What `angular.mock.module` returns. -/
  moduleResult : Val
  /-- Properties a value has besides the own enumerable ones the model keeps:
  those it inherits (`toString`, `hasOwnProperty`, `constructor`, `__proto__`
  for an object; `call`, `apply` for a function), those that are not
  enumerable, those the spy framework puts on a spy. -/
  builtins : Val → Props
  /-- Outcome of a registration `$provide[recipe](name, value)` (recipe
  `controller` for `$controllerProvider.register`): the provider may refuse it
  (a name it does not allow, a decorator for something that is not
  registered). -/
  provide : String → String → Val → Except Err Unit
  /-- The error the module loader throws when a module function has thrown
  the given one. -/
  wrapModuleError : Err → Err

/-! ## Spy framework primitives -/

/-- Primitive `jasmine.createSpy(name)`: a fresh spy. -/
def createSpy (name : String) (x : Ext) : Val × Ext :=
  (.spy x.spies.length,
   { x with spies := x.spies ++ [{ identity := name, calls := [], props := [] }] })

/-- Loop of `jasmine.createSpyObj`: `obj[name] = createSpy(baseName + "." + name)`
for every name in turn. -/
def createSpies (baseName : String) : List Val → Props → Ext → Props × Ext
  | [], o, x => (o, x)
  | m :: rest, o, x =>
    let r := createSpy (baseName ++ "." ++ toKey m) x
    createSpies baseName rest (assign (toKey m) r.1 o) r.2

/-- Primitive `jasmine.createSpyObj(baseName, methodNames)`: it requires a
non-empty array of method names and returns an object holding one fresh spy
per name. -/
def createSpyObj (baseName : String) (methodNames : Val) (x : Ext) : Res Val :=
  match methodNames with
  | .arr (m :: rest) =>
    let r := createSpies baseName (m :: rest) [] x
    (.ok (.obj r.1), r.2)
  | _ =>
    (.error (.error
      "createSpyObj requires a non-empty array of method names to create spies for"), x)

/-- Replace the cell at a heap address. -/
def updateCell (ref : Nat) (f : SpyCell → SpyCell) : List SpyCell → List SpyCell
  | [] => []
  | c :: rest =>
    match ref with
    | 0 => f c :: rest
    | n + 1 => c :: updateCell n f rest

/-- A configuration call made on a value, under a spy framework of the given
generation: it is recorded on the cell when the value is a spy and the call is
one of that generation; a spy does not have the methods of the other
generation and anything else has none of them, so the call is a
`TypeError`. -/
def configureSpy (second : Bool) (target : Val) (call : SpyCall) (x : Ext) : Res Unit :=
  match target with
  | .spy ref =>
    if ref < x.spies.length then
      if call.isSecond == second then
        (.ok (), { x with
          spies := updateCell ref (fun c => { c with calls := c.calls ++ [call] }) x.spies })
      else (.error .typeError, x)
    else (.error .typeError, x)
  | _ => (.error .typeError, x)

/-- End of `angular.extend`, `setHashKey(dst, h)`: the key `$$hashKey` gets
back the value `h` it had before the copy, or is deleted when that value is
falsy. -/
def setHashKey (h : Val) (p : Props) : Props :=
  if truthy h then setKey "$$hashKey" h p else delKey "$$hashKey" p

/-- Copy `forEach(src, function (value, key) { dst[key] = value; })` of
`angular.extend`. -/
def copyInto (dst : Props) (src : Val) : Props :=
  (forEachEntries src).foldl (fun d vk => assign (toKey vk.2) vk.1 d) dst

/-- Call `angular.extend(dst, src1, src2, ...)` on the properties of `dst`:
every source is copied in turn, then `$$hashKey` is put back as it was. -/
def extend (dst : Props) (srcs : List Val) : Props :=
  setHashKey (getKey "$$hashKey" dst) (srcs.foldl copyInto dst)

/-- Call `angular.extend(dst, src)` when `dst` is a spy function: the
properties go on the cell. -/
def extendSpy (target : Val) (src : Val) (x : Ext) : Res Unit :=
  match target with
  | .spy ref =>
    if ref < x.spies.length then
      (.ok (), { x with
        spies := updateCell ref (fun c => { c with props := extend c.props [src] }) x.spies })
    else (.error .typeError, x)
  | _ => (.error .typeError, x)

/-- Invocation `f(args...)`.  A spy follows its plan; the closure of
`createResourceMock` returns `angular.extend({}, mock, data)`; any other
function is run by the host; anything else is not callable. -/
def callVal (h : Host) (f : Val) (args : List Val) (x : Ext) : Res Val :=
  match f with
  | .ctorFake mock => (.ok (.obj (extend [] [.obj mock, args.headD .undefined])), x)
  | .fn _ _ _ => h.call f args x
  | .spy ref =>
    match x.spies.get? ref with
    | none => (.error .typeError, x)
    | some c =>
      match c.plan with
      | .stub => (.ok .undefined, x)
      | .returns v => (.ok v, x)
      | .fake (.ctorFake mock) =>
        (.ok (.obj (extend [] [.obj mock, args.headD .undefined])), x)
      | .fake g => h.call g args x
  | _ => (.error .typeError, x)

/-! ## `save`, `createMock`, `createResourceMock` -/

/-- The registration verbs of the provider handle. -/
def providerVerbs : List String :=
  ["provider", "factory", "service", "value", "constant", "decorator"]

/-- Method `this.save = function saveMock($provide, mockName, mock, recipe)`:
the provider first, then the registry. -/
def saveMock (h : Host) (mockName : Val) (mock : Val) (recipe : Val) (x : Ext) : Res Val :=
  let recipe := if truthy recipe then toKey recipe else "value"
  if providerVerbs.contains recipe then
    match h.provide recipe (toKey mockName) mock with
    | .error e => (.error e, x)
    | .ok _ =>
      (.ok mock,
       { x with provider := x.provider ++ [.register recipe (toKey mockName) mock],
                get := assign (toKey mockName) mock x.get })
  else (.error .typeError, x)

/-- The function returned by `createMock(mockName, mockedMethods)`, applied to
`($provide, nameOverride)`; `provide` tells whether a provider handle was
passed. -/
def createMock (h : Host) (mockName : Val) (mockedMethods : Val) (provide : Bool)
    (nameOverride : Val) (x : Ext) : Res Val :=
  let made : Res Val :=
    if truthy mockedMethods then createSpyObj (toKey mockName) mockedMethods x
    else
      let r := createSpy (toKey mockName) x
      (.ok r.1, r.2)
  match made with
  | (.error e, x1) => (.error e, x1)
  | (.ok mock, x1) =>
    if provide then
      match saveMock h (if truthy nameOverride then nameOverride else mockName) mock
          .undefined x1 with
      | (.error e, x2) => (.error e, x2)
      | (.ok _, x2) => (.ok mock, x2)
    else (.ok mock, x1)

/-- Helper `addToMethodList` of `createResourceMock`. -/
def addToMethodList (allMethods : Props) (methodName : Val) : Props :=
  assign ("$" ++ toKey methodName) (.str ("$" ++ toKey methodName))
    (assign (toKey methodName) methodName allMethods)

/-- The object `allMethods` that `createResourceMock(mockName, methodNames)`
builds before it returns its function. -/
def allMethods (methodNames : Val) : Props :=
  assign "constructor" (.str "constructor")
    (((forEachEntries methodNames).map Prod.fst).foldl addToMethodList [])

/-- The function returned by `createResourceMock(mockName, methodNames)`,
applied to `($provide)`; `provide` tells whether a provider handle was
passed. -/
def createResourceMock (h : Host) (mockName : Val) (methodNames : Val)
    (provide : Bool) (x : Ext) : Res Val :=
  match createSpyObj (toKey mockName)
      (.arr ((keysOf (allMethods methodNames)).map Val.str)) x with
  | (.error e, x1) => (.error e, x1)
  | (.ok mock, x1) =>
    match mock with
    | .obj mockProps =>
      let fn := Val.ctorFake mockProps
      let ctor := getKey "constructor" mockProps
      match configureSpy h.isJasmine2 ctor
          (if h.isJasmine2 then .and_callFake fn else .andCallFake fn) x1 with
      | (.error e, x2) => (.error e, x2)
      | (.ok _, x2) =>
        match extendSpy ctor mock x2 with
        | (.error e, x3) => (.error e, x3)
        | (.ok _, x3) =>
          if provide then
            match h.provide "value" (toKey mockName) ctor with
            | .error e => (.error e, x3)
            | .ok _ =>
              (.ok ctor,
               { x3 with provider := x3.provider ++ [.register "value" (toKey mockName) ctor],
                         get := assign (toKey mockName) mock x3.get })
          else (.ok ctor, x3)
    | _ => (.error .typeError, x1)

/-! ## The callbacks pushed on the queues -/

/-- Property read `v.name`, a `TypeError` on `undefined` and `null`. -/
def nameOf : Val → Except Err Val
  | .undefined => .error .typeError
  | .null => .error .typeError
  | .obj props => .ok (getKey "name" props)
  | .fn name _ _ => .ok (.str name)
  | .spy _ => .ok (.str "")
  | .ctorFake _ => .ok (.str "")
  | _ => .ok .undefined

/-- Test `v.name === "Resource"` / `v.name !== "Resource"` on a name already
read. -/
def isResourceName : Val → Bool
  | .str s => s == "Resource"
  | _ => false

/-- Inner function `getMethodNames(obj)` of `mockServices`. -/
def getMethodNames (obj : Val) : Val :=
  if isFunction obj && !(match nameOf obj with
      | .ok n => isResourceName n
      | .error _ => false) then .undefined
  else
    .arr (((forEachEntries obj).filter (fun vk => isFunction vk.1)).map Prod.snd)

/-- Test `mockName in mox.factories`: a custom factory, or a name every object
has. -/
def inFactories (h : Host) (name : String) : Bool :=
  h.factories.contains name || hasKey name (h.builtins (.obj []))

/-- Body of the iterator of `mockServicesFn` for one `mockName`; `get` is
`injector.get`. -/
def mockService (h : Host) (get : Val → Except Err Val) (mockName : Val) (x : Ext) :
    Res Unit :=
  let name := match mockName with
    | .arr items => items.headD .undefined
    | other => other
  let extra := match mockName with
    | .arr items => items.tail
    | _ => []
  if inFactories h (toKey name) then h.applyFactory (toKey name) extra x
  else
    match get name with
    | .error e => (.error e, x)
    | .ok service =>
      match nameOf service with
      | .error e => (.error e, x)
      | .ok n =>
        if isResourceName n then
          match createResourceMock h name (getMethodNames service) true x with
          | (.error e, x1) => (.error e, x1)
          | (.ok _, x1) => (.ok (), x1)
        else
          match createMock h name (getMethodNames service) true .undefined x with
          | (.error e, x1) => (.error e, x1)
          | (.ok _, x1) => (.ok (), x1)

/-- Callback `mockServicesFn($provide)`; `moduleName` is read when the
callback runs. -/
def mockServicesFn (h : Host) (moduleName : Val) (mockNames : List Val) (x : Ext) :
    Res Unit :=
  match h.injector moduleName with
  | .error e => (.error e, x)
  | .ok get => forEachM (mockService h get) mockNames x

/-- Callback `mockConstantsFn($provide)`. -/
def mockConstantsFn (h : Host) (config : Val) (x : Ext) : Res Unit :=
  forEachM (fun (vk : Val × Val) x0 =>
      match saveMock h vk.2 vk.1 (.str "constant") x0 with
      | (.error e, x1) => (.error e, x1)
      | (.ok _, x1) => (.ok (), x1))
    (forEachEntries config) x

/-- Body of the iterator of `mockDirectivesFn` for one entry. -/
def mockDirective (h : Host) (directive : Val) (x : Ext) : Res Unit :=
  let mock := if isString directive then Val.obj [("name", directive)] else directive
  match nameOf mock with
  | .error e => (.error e, x)
  | .ok n =>
    match h.provide "decorator" (toKey n ++ "Directive") mock with
    | .error e => (.error e, x)
    | .ok _ =>
      (.ok (), { x with provider := x.provider ++ [.decorator (toKey n ++ "Directive") mock] })

/-- Callback `mockDirectivesFn($provide)`. -/
def mockDirectivesFn (h : Host) (directiveNames : List Val) (x : Ext) : Res Unit :=
  forEachM (mockDirective h) directiveNames x

/-- Callback `disableDirectivesFn($provide)`. -/
def disableDirectivesFn (h : Host) (directiveNames : List Val) (x : Ext) : Res Unit :=
  forEachM (fun (d : Val) x0 =>
      match h.provide "factory" (toKey d ++ "Directive") (.obj []) with
      | .error e => (.error e, x0)
      | .ok _ =>
        (.ok (), { x0 with
          provider := x0.provider ++ [.factoryEmpty (toKey d ++ "Directive")] }))
    directiveNames x

/-- Callback pushed by `mockControllers`. -/
def mockControllersFn (h : Host) (controllerNames : List Val) (x : Ext) : Res Unit :=
  forEachM (fun (c : Val) x0 =>
      match h.provide "controller" (toKey c) .undefined with
      | .error e => (.error e, x0)
      | .ok _ => (.ok (), { x0 with provider := x0.provider ++ [.controller c] }))
    controllerNames x

/-- The pair `(path, template)` that the iterator of the callback of
`mockTemplates` hands to `$templateCache.put` for one entry. -/
def templateOf (templateConfig : Val) : Val × Val :=
  if isString templateConfig then
    (templateConfig, .str ("<div>This is a mock for " ++ toKey templateConfig ++ "</div>"))
  else
    (forEachEntries templateConfig).foldl (fun _ vk => (vk.2, vk.1))
      (.undefined, .undefined)

/-- Callback pushed by `mockTemplates`.  The helper `injectEnv` is not part of
`mox.js`; `injectEnv("$templateCache")` is taken to return the template cache
of the current injector, whose `put`s are recorded in `Ext.templateCache`. -/
def mockTemplatesFn (templates : List Val) (x : Ext) : Res Unit :=
  forEachM (fun (t : Val) x0 =>
      (.ok (), { x0 with templateCache := x0.templateCache ++ [templateOf t] }))
    templates x

/-- Inner function `setSpyResult(spy, returnValue)` of `setupResults`;
`isJasmine2` is `currentSpec.isJasmine2`, which is also the generation of the
spy framework the call is made on. -/
def setSpyResult (isJasmine2 : Bool) (spy : Val) (returnValue : Val) (x : Ext) :
    Res Unit :=
  if isFunction returnValue then
    if isJasmine2 then configureSpy isJasmine2 spy (.and_callFake returnValue) x
    else configureSpy isJasmine2 spy (.andCallFake returnValue) x
  else
    if isJasmine2 then configureSpy isJasmine2 spy (.and_returnValue returnValue) x
    else configureSpy isJasmine2 spy (.andReturn returnValue) x

/-- Test `typeof mockConfig === "object" && mockConfig.constructor === Object`;
reading `constructor` of `null` is a `TypeError`, an own `constructor`
property hides `Object`. -/
def isObjectForm : Val → Except Err Bool
  | .null => .error .typeError
  | .obj props => .ok (!hasKey "constructor" props)
  | _ => .ok false

/-- Own properties the model keeps for a value: those of an object or of a
function supplied from outside, those written on a spy. -/
def keptProps (x : Ext) : Val → Props
  | .obj props => props
  | .fn _ _ props => props
  | .spy ref =>
    match x.spies.get? ref with
    | some c => c.props
    | none => []
  | _ => []

/-- Whether `in` and a property read throw on the value (a primitive). -/
def isPrimitive : Val → Bool
  | .obj _ => false
  | .fn _ _ _ => false
  | .spy _ => false
  | .ctorFake _ => false
  | .arr _ => false
  | _ => true

/-- Test `key in v`, a `TypeError` when `v` is a primitive: the property is
one the model keeps for the value or one the host gives it. -/
def hasIn (h : Host) (x : Ext) (key : String) (v : Val) : Except Err Bool :=
  if isPrimitive v then .error .typeError
  else .ok (hasKey key (keptProps x v) || hasKey key (h.builtins v))

/-- Property read `v[key]`, made after `key in v` has held: an own property
hides the one the host gives. -/
def readProp (h : Host) (x : Ext) (key : String) (v : Val) : Val :=
  if hasKey key (keptProps x v) then getKey key (keptProps x v)
  else getKey key (h.builtins v)

/-- Body of the inner iterator of `setupResultsFn` for one `(returnValue,
method)` of an object-form entry. -/
def setupMethod (h : Host) (mockName : String) (mock : Val) (vk : Val × Val)
    (x : Ext) : Res Unit :=
  match hasIn h x (toKey vk.2) mock with
  | .error e => (.error e, x)
  | .ok false =>
    (.error (.error ("Could not mock return value. No method " ++ toKey vk.2 ++
      " created in mock for " ++ mockName)), x)
  | .ok true => setSpyResult h.isJasmine2 (readProp h x (toKey vk.2) mock) vk.1 x

/-- Test `mockName in mox.get`. -/
def inRegistry (h : Host) (x : Ext) (mockName : String) : Bool :=
  hasKey mockName x.get || hasKey mockName (h.builtins (.obj x.get))

/-- Body of the outer iterator of `setupResultsFn` for one `(mockConfig,
mockName)`. -/
def setupMock (h : Host) (vk : Val × Val) (x : Ext) : Res Unit :=
  if inRegistry h x (toKey vk.2) then
    let mock := readProp h x (toKey vk.2) (.obj x.get)
    match isObjectForm vk.1 with
    | .error e => (.error e, x)
    | .ok true => forEachM (setupMethod h (toKey vk.2) mock) (forEachEntries vk.1) x
    | .ok false => setSpyResult h.isJasmine2 mock vk.1 x
  else (.error (.error (toKey vk.2 ++ " is not in mox.get")), x)

/-- Callback `setupResultsFn()`. -/
def setupResultsFn (h : Host) (configFn : Val) (x : Ext) : Res Unit :=
  match callVal h configFn [] x with
  | (.error e, x1) => (.error e, x1)
  | (.ok config, x1) => forEachM (setupMock h) (forEachEntries config) x1

/-- An element of `moduleFns`: an argument of `module()` or one of the
closures pushed by the registration methods, with what it captured. -/
inductive SetupEntry where
  | arg (v : Val) : SetupEntry
  | mockServicesFn (mockNames : List Val) : SetupEntry
  | mockConstantsFn (config : Val) : SetupEntry
  | mockDirectivesFn (directiveNames : List Val) : SetupEntry
  | disableDirectivesFn (directiveNames : List Val) : SetupEntry
  | mockControllersFn (controllerNames : List Val) : SetupEntry
  deriving Inhabited

/-- An element of `postInjectFns`. -/
inductive PostEntry where
  | mockTemplatesFn (templates : List Val) : PostEntry
  | setupResultsFn (configFn : Val) : PostEntry
  deriving Inhabited

/-- What the module loader does with one element of `moduleFns`. -/
def runSetupEntry (h : Host) (moduleName : Val) : SetupEntry → Ext → Res Unit
  | .arg v => h.loadArg v
  | .mockServicesFn mockNames => Mox.mockServicesFn h moduleName mockNames
  | .mockConstantsFn config => Mox.mockConstantsFn h config
  | .mockDirectivesFn names => Mox.mockDirectivesFn h names
  | .disableDirectivesFn names => Mox.disableDirectivesFn h names
  | .mockControllersFn names => Mox.mockControllersFn h names

/-- Invocation `cb()` of one element of `postInjectFns`. -/
def runPostEntry (h : Host) : PostEntry → Ext → Res Unit
  | .mockTemplatesFn templates => Mox.mockTemplatesFn templates
  | .setupResultsFn configFn => Mox.setupResultsFn h configFn

/-! ## The registrar -/

/-- A callback started by `run()`, for the record of what was executed. -/
inductive Event where
  | setup (e : SetupEntry) : Event
  | post (e : PostEntry) : Event
  deriving Inhabited

/-- State of the program: the three closure variables of `MoxBuilder`, the
state callbacks act on, and the record of the callbacks started so far (oldest
first; the program does not read it). -/
structure World where
  moduleName : Val
  moduleFns : List SetupEntry
  postInjectFns : List PostEntry
  ext : Ext
  trace : List Event
  deriving Inhabited

/-- What a method of the registrar returns: `this`, or a value. -/
inductive Ret where
  | self : Ret
  | value (v : Val) : Ret
  deriving Inhabited

/-- Function `cleanUp()`. -/
def cleanUp (w : World) : World :=
  { w with moduleName := .undefined, moduleFns := [], postInjectFns := [] }

/-- State after `MoxBuilder()` has run: `cleanUp()` and `this.get = {}`. -/
def init : World :=
  cleanUp
    { moduleName := .undefined, moduleFns := [], postInjectFns := [],
      ext := { get := [], provider := [], templateCache := [], spies := [] },
      trace := [] }

/-- Function `assertDeprecatedArguments(args)`. -/
def assertDeprecatedArguments (args : List Val) : Except Err Unit :=
  if !truthy (args.headD .undefined) then .error (.error "Please provide arguments")
  else .ok ()

/-- Method `this.module`. -/
def module (args : List Val) (w : World) : Except Err Ret × World :=
  (.ok .self,
   { w with moduleName := args.headD .undefined,
            moduleFns := w.moduleFns ++ args.map SetupEntry.arg })

/-- Method `this.mockServices`. -/
def mockServices (args : List Val) (w : World) : Except Err Ret × World :=
  match assertDeprecatedArguments args with
  | .error e => (.error e, w)
  | .ok _ => (.ok .self, { w with moduleFns := w.moduleFns ++ [.mockServicesFn args] })

/-- The `config` that the callback of `mockConstants` closes over: the first
argument, or `{}` with `config[arguments[0]] = arguments[1]` when the first
argument is a string. -/
def constantsConfig (args : List Val) : Val :=
  if isString (args.headD .undefined) then
    Val.obj (assign (toKey (args.headD .undefined)) (args.getD 1 .undefined) [])
  else args.headD .undefined

/-- Method `this.mockConstants`. -/
def mockConstants (args : List Val) (w : World) : Except Err Ret × World :=
  match assertDeprecatedArguments args with
  | .error e => (.error e, w)
  | .ok _ =>
    (.ok .self, { w with moduleFns := w.moduleFns ++ [.mockConstantsFn (constantsConfig args)] })

/-- Method `this.mockDirectives`. -/
def mockDirectives (args : List Val) (w : World) : Except Err Ret × World :=
  match assertDeprecatedArguments args with
  | .error e => (.error e, w)
  | .ok _ => (.ok .self, { w with moduleFns := w.moduleFns ++ [.mockDirectivesFn args] })

/-- Method `this.disableDirectives`. -/
def disableDirectives (args : List Val) (w : World) : Except Err Ret × World :=
  match assertDeprecatedArguments args with
  | .error e => (.error e, w)
  | .ok _ => (.ok .self, { w with moduleFns := w.moduleFns ++ [.disableDirectivesFn args] })

/-- Method `this.mockControllers`. -/
def mockControllers (args : List Val) (w : World) : Except Err Ret × World :=
  match assertDeprecatedArguments args with
  | .error e => (.error e, w)
  | .ok _ => (.ok .self, { w with moduleFns := w.moduleFns ++ [.mockControllersFn args] })

/-- Method `this.mockTemplates`. -/
def mockTemplates (args : List Val) (w : World) : Except Err Ret × World :=
  match assertDeprecatedArguments args with
  | .error e => (.error e, w)
  | .ok _ =>
    (.ok .self, { w with postInjectFns := w.postInjectFns ++ [.mockTemplatesFn args] })

/-- Method `this.setupResults`. -/
def setupResults (configFn : Val) (w : World) : Except Err Ret × World :=
  (.ok .self, { w with postInjectFns := w.postInjectFns ++ [.setupResultsFn configFn] })

/-- Callbacks started one after the other, each one recorded when it starts;
the first throw ends the loop. -/
def startAll {α : Type} (f : α → Ext → Res Unit) (tag : α → Event) :
    List α → Ext → List Event → Except Err Unit × Ext × List Event
  | [], x, t => (.ok (), x, t)
  | a :: rest, x, t =>
    match f a x with
    | (.ok _, x1) => startAll f tag rest x1 (t ++ [tag a])
    | (.error e, x1) => (.error e, x1, t ++ [tag a])

/-- The module-loading step, `angular.mock.module.apply(this, moduleFns)`
followed by `angular.mock.inject()`: the loader is handed the elements of
`moduleFns` and runs them in that order; when one of them throws, the loader
throws its own error about it. -/
def loadModules (h : Host) (moduleName : Val) (fns : List SetupEntry) (x : Ext)
    (t : List Event) : Except Err Unit × Ext × List Event :=
  match startAll (runSetupEntry h moduleName) Event.setup fns x t with
  | (.error e, x1, t1) => (.error (h.wrapModuleError e), x1, t1)
  | (.ok u, x1, t1) => (.ok u, x1, t1)

/-- Function `execute()`. -/
def execute (h : Host) (w : World) : Except Err Val × World :=
  if w.moduleFns.length != 0 then
    match loadModules h w.moduleName w.moduleFns w.ext w.trace with
    | (.error e, x1, t1) => (.error e, { w with ext := x1, trace := t1 })
    | (.ok _, x1, t1) =>
      match startAll (runPostEntry h) Event.post w.postInjectFns x1 t1 with
      | (.error e, x2, t2) => (.error e, { w with ext := x2, trace := t2 })
      | (.ok _, x2, t2) => (.ok h.moduleResult, { w with ext := x2, trace := t2 })
  else
    match startAll (runPostEntry h) Event.post w.postInjectFns w.ext w.trace with
    | (.error e, x2, t2) => (.error e, { w with ext := x2, trace := t2 })
    | (.ok _, x2, t2) => (.ok .undefined, { w with ext := x2, trace := t2 })

/-- Method `this.run`: `execute()`, then `cleanUp()`, then the result. -/
def run (h : Host) (w : World) : Except Err Ret × World :=
  match execute h w with
  | (.error e, w1) => (.error e, w1)
  | (.ok moduleResult, w1) => (.ok (.value moduleResult), cleanUp w1)

/-- A registration call. -/
inductive Call where
  | module (args : List Val) : Call
  | mockServices (args : List Val) : Call
  | mockConstants (args : List Val) : Call
  | mockDirectives (args : List Val) : Call
  | disableDirectives (args : List Val) : Call
  | mockControllers (args : List Val) : Call
  | mockTemplates (args : List Val) : Call
  | setupResults (configFn : Val) : Call
  deriving Inhabited

/-- One registration call made on the registrar. -/
def Call.apply : Call → World → Except Err Ret × World
  | .module args => Mox.module args
  | .mockServices args => Mox.mockServices args
  | .mockConstants args => Mox.mockConstants args
  | .mockDirectives args => Mox.mockDirectives args
  | .disableDirectives args => Mox.disableDirectives args
  | .mockControllers args => Mox.mockControllers args
  | .mockTemplates args => Mox.mockTemplates args
  | .setupResults configFn => Mox.setupResults configFn

/-- A sequence of registration calls; a call that throws ends the sequence. -/
def applyCalls : List Call → World → Except Err Unit × World
  | [], w => (.ok (), w)
  | c :: rest, w =>
    match c.apply w with
    | (.error e, w1) => (.error e, w1)
    | (.ok _, w1) => applyCalls rest w1

/-- The elements a registration call appends to `moduleFns` when it returns. -/
def Call.setupEntries : Call → List SetupEntry
  | .module args => args.map SetupEntry.arg
  | .mockServices args => [.mockServicesFn args]
  | .mockConstants args => [.mockConstantsFn (constantsConfig args)]
  | .mockDirectives args => [.mockDirectivesFn args]
  | .disableDirectives args => [.disableDirectivesFn args]
  | .mockControllers args => [.mockControllersFn args]
  | .mockTemplates _ => []
  | .setupResults _ => []

/-- The elements a registration call appends to `postInjectFns` when it
returns. -/
def Call.postEntries : Call → List PostEntry
  | .mockTemplates args => [.mockTemplatesFn args]
  | .setupResults configFn => [.setupResultsFn configFn]
  | _ => []

/-- The record `run()` leaves when every callback queued by `calls` is started
once: the setup entries in the order they were appended, then the post-setup
callbacks in the order they were appended. -/
def expectedTrace (calls : List Call) : List Event :=
  (calls.flatMap Call.setupEntries).map Event.setup ++
    (calls.flatMap Call.postEntries).map Event.post

/-- The six registration methods that begin with
`assertDeprecatedArguments(arguments)`. -/
def assertingMethods : List (List Val → World → Except Err Ret × World) :=
  [mockServices, mockConstants, mockDirectives, disableDirectives, mockControllers,
   mockTemplates]

/-! ## Sample host and inputs -/

/-- Sample `injector.get`: an object service with two methods and a data
field, a function service carrying a method, a resource class, and an object
service that holds data only. -/
def sampleGet : Val → Except Err Val
  | .str "Svc" => .ok (.obj [("load", .fn "load" 1 []), ("size", .num 2), ("store", .fn "store" 2 [])])
  | .str "Fn" => .ok (.fn "Fn" 3 [("get", .fn "get" 4 [])])
  | .str "Res" => .ok (.fn "Resource" 5 [("get", .fn "get" 6 []), ("query", .fn "query" 7 [])])
  | .str "Data" => .ok (.obj [("size", .num 2)])
  | _ => .error (.error "Unknown provider")

/-- Sample behaviour of functions supplied from outside: the configuration
factories used in the examples are told apart by their identifier. -/
def sampleCall : Val → List Val → Ext → Res Val
  | .fn _ 10 _, _, x => (.ok (.obj [("Unknown", .num 1)]), x)
  | .fn _ 11 _, _, x =>
    (.ok (.obj [("Known", .obj [("missing", .num 1)]), ("Unknown", .num 5)]), x)
  | .fn _ 12 _, _, x => (.ok (.obj [("Fn", .obj [("a", .num 1)])]), x)
  | .fn _ 13 _, _, x =>
    (.ok (.obj [("Svc", .obj [("load", .num 1), ("store", .fn "fake" 9 [])])]), x)
  | .fn _ 14 _, _, x => (.ok (.obj [("Fn", .num 7)]), x)
  | _, _, x => (.ok .undefined, x)

/-- Sample of the properties values have besides their own enumerable ones:
a few of those every object inherits, and for a spy of the second generation
`and` and `calls`. -/
def sampleBuiltins : Val → Props
  | .obj _ =>
    [("constructor", .fn "Object" 100 []), ("toString", .fn "toString" 101 []),
     ("hasOwnProperty", .fn "hasOwnProperty" 102 []), ("valueOf", .fn "valueOf" 103 []),
     ("__proto__", .obj [])]
  | .spy _ =>
    [("and", .obj []), ("calls", .obj []), ("call", .fn "call" 104 []),
     ("apply", .fn "apply" 105 []), ("toString", .fn "toString" 101 [])]
  | .fn _ _ _ => [("call", .fn "call" 104 []), ("apply", .fn "apply" 105 [])]
  | .ctorFake _ => [("call", .fn "call" 104 []), ("apply", .fn "apply" 105 [])]
  | .arr items => [("length", .num items.length)]
  | _ => []

/-- Sample provider: it refuses the name `hasOwnProperty` and a decorator for
anything but the directive `known`. -/
def sampleProvide : String → String → Val → Except Err Unit
  | _, "hasOwnProperty", _ => .error (.error "hasOwnProperty is not a valid name")
  | "decorator", "knownDirective", _ => .ok ()
  | "decorator", _, _ => .error (.error "Unknown provider")
  | _, _, _ => .ok ()

/-- Sample of the error the module loader makes of the error of a module
function. -/
def sampleWrap : Err → Err
  | .error msg => .error ("Failed to instantiate module due to: " ++ msg)
  | .typeError => .error "Failed to instantiate module due to: TypeError"

/-- Sample host, second generation of the spy framework. -/
def sampleHost : Host where
  isJasmine2 := true
  injector := fun _ => .ok sampleGet
  factories := []
  applyFactory := fun _ _ x => (.ok (), x)
  loadArg := fun _ x => (.ok (), x)
  call := sampleCall
  moduleResult := .undefined
  builtins := sampleBuiltins
  provide := sampleProvide
  wrapModuleError := sampleWrap

/-- Sample host, first generation of the spy framework. -/
def firstHost : Host := { sampleHost with isJasmine2 := false }

/-- Sample state: a registrar on which `mockTemplates("p")` has been called. -/
def templatesWorld : World := (mockTemplates [.str "p"] init).2

/-- Sample state: `module("app")` followed by `setupResults` with a
configuration that names a mock nobody registered. -/
def staleWorld : World :=
  (applyCalls [.module [.str "app"], .setupResults (.fn "config" 10 [])] init).2

/-- Sample calls of one cycle, every callback of which returns. -/
def cycleCalls : List Call :=
  [.module [.str "app"], .mockConstants [.str "X", .num 5], .mockTemplates [.str "p"],
   .setupResults (.fn "config" 15 []), .mockControllers [.str "MainCtrl"]]

/-- Sample calls: a `setupResults` whose callback throws, then a
`mockTemplates`. -/
def throwingCalls : List Call :=
  [.setupResults (.fn "config" 10 []), .mockTemplates [.str "p"]]

/-- The `put`s the words of the specification ask of `mockTemplates` for one
entry: the placeholder for a path string, every path with its body for a
map. -/
def specPuts : Val → List (Val × Val)
  | .str p => [(.str p, .str ("<div>This is a mock for " ++ p ++ "</div>"))]
  | .obj props => props.map (fun kv => (Val.str kv.1, kv.2))
  | _ => []

/-- Whether a call received by the provider registers the given name. -/
def ProviderCall.isFor (n : String) : ProviderCall → Bool
  | .register _ m _ => m == n
  | .decorator m _ => m == n
  | .factoryEmpty m => m == n
  | .controller c => toKey c == n

/-- Sample state: a spy object exposing `get`, registered as `Known`. -/
def knownExt : Ext :=
  (createMock sampleHost (.str "Known") (.arr [.str "get"]) true .undefined init.ext).2

/-- Sample state: a single callable spy registered as `Fn`. -/
def fnExt : Ext :=
  (createMock sampleHost (.str "Fn") .undefined true .undefined init.ext).2

/-- Sample state: a spy object exposing `load` and `store`, registered as
`Svc`. -/
def svcExt : Ext :=
  (createMock sampleHost (.str "Svc") (.arr [.str "load", .str "store"]) true .undefined
    init.ext).2

/-- Names of the function-valued properties among the given ones, in
enumeration order. -/
def functionNames (props : Props) : List String :=
  (props.filter (fun kv => isFunction kv.2)).map Prod.fst

/-! # Theorems -/

/-! ## Queues -/

theorem assert_step_ok (args : List Val) (w w1 w2 : World) (r : Ret)
    (hc : (match assertDeprecatedArguments args with
      | .error e => ((.error e : Except Err Ret), w)
      | .ok _ => (.ok .self, w2)) = (.ok r, w1)) : w1 = w2 ∧ r = .self := by
  cases hA : assertDeprecatedArguments args with
  | error e => rw [hA] at hc; simp at hc
  | ok u =>
    rw [hA] at hc
    simp only [Prod.mk.injEq, Except.ok.injEq] at hc
    exact ⟨hc.2.symm, hc.1.symm⟩

theorem Call.apply_ok (c : Call) (w w1 : World) (r : Ret) (hc : c.apply w = (.ok r, w1)) :
    w1.moduleFns = w.moduleFns ++ c.setupEntries ∧
    w1.postInjectFns = w.postInjectFns ++ c.postEntries ∧
    w1.ext = w.ext ∧ w1.trace = w.trace := by
  cases c with
  | module args =>
    simp only [Call.apply, Mox.module, Prod.mk.injEq] at hc
    obtain ⟨-, rfl⟩ := hc
    simp [Call.setupEntries, Call.postEntries]
  | setupResults f =>
    simp only [Call.apply, Mox.setupResults, Prod.mk.injEq] at hc
    obtain ⟨-, rfl⟩ := hc
    simp [Call.setupEntries, Call.postEntries]
  | mockServices args =>
    obtain ⟨rfl, -⟩ := assert_step_ok args w w1 _ r hc
    simp [Call.setupEntries, Call.postEntries]
  | mockConstants args =>
    obtain ⟨rfl, -⟩ := assert_step_ok args w w1 _ r hc
    simp [Call.setupEntries, Call.postEntries]
  | mockDirectives args =>
    obtain ⟨rfl, -⟩ := assert_step_ok args w w1 _ r hc
    simp [Call.setupEntries, Call.postEntries]
  | disableDirectives args =>
    obtain ⟨rfl, -⟩ := assert_step_ok args w w1 _ r hc
    simp [Call.setupEntries, Call.postEntries]
  | mockControllers args =>
    obtain ⟨rfl, -⟩ := assert_step_ok args w w1 _ r hc
    simp [Call.setupEntries, Call.postEntries]
  | mockTemplates args =>
    obtain ⟨rfl, -⟩ := assert_step_ok args w w1 _ r hc
    simp [Call.setupEntries, Call.postEntries]

theorem applyCalls_ok (calls : List Call) (w w1 : World)
    (hc : applyCalls calls w = (.ok (), w1)) :
    w1.moduleFns = w.moduleFns ++ calls.flatMap Call.setupEntries ∧
    w1.postInjectFns = w.postInjectFns ++ calls.flatMap Call.postEntries ∧
    w1.ext = w.ext ∧ w1.trace = w.trace := by
  induction calls generalizing w with
  | nil =>
    simp only [applyCalls] at hc
    obtain ⟨-, rfl⟩ := Prod.mk.inj hc
    simp
  | cons c rest ih =>
    simp only [applyCalls] at hc
    split at hc
    · simp at hc
    · next r w2 hstep =>
      obtain ⟨h1, h2, h3, h4⟩ := Call.apply_ok c w w2 r hstep
      obtain ⟨k1, k2, k3, k4⟩ := ih w2 hc
      simp [k1, k2, k3, k4, h1, h2, h3, h4, List.flatMap_cons]

theorem startAll_ok {α : Type} (f : α → Ext → Res Unit) (tag : α → Event) (l : List α)
    (x x1 : Ext) (t t1 : List Event) (u : Unit)
    (hs : startAll f tag l x t = (.ok u, x1, t1)) : t1 = t ++ l.map tag := by
  induction l generalizing x t with
  | nil =>
    simp only [startAll] at hs
    obtain ⟨-, h2⟩ := Prod.mk.inj hs
    obtain ⟨-, rfl⟩ := Prod.mk.inj h2
    simp
  | cons a rest ih =>
    simp only [startAll] at hs
    split at hs
    · rw [ih _ _ hs]; simp
    · simp at hs

theorem startAll_prefix {α : Type} (f : α → Ext → Res Unit) (tag : α → Event) (l : List α)
    (x : Ext) (t : List Event) :
    ∃ done, (startAll f tag l x t).2.2 = t ++ done ∧ done <+: l.map tag := by
  induction l generalizing x t with
  | nil => exact ⟨[], by simp [startAll]⟩
  | cons a rest ih =>
    simp only [startAll]
    split
    · next x1 _ =>
      obtain ⟨done, h1, h2⟩ := ih x1 (t ++ [tag a])
      refine ⟨tag a :: done, ?_, ?_⟩
      · rw [h1]; simp
      · simpa [List.cons_prefix_cons] using h2
    · exact ⟨[tag a], by simp, by simp [List.cons_prefix_cons]⟩

theorem startAll_all_ok {α : Type} (f : α → Ext → Res Unit) (tag : α → Event) (l : List α)
    (x x1 : Ext) (t : List Event) (u : Unit) (hf : forEachM f l x = (.ok u, x1)) :
    startAll f tag l x t = (.ok (), x1, t ++ l.map tag) := by
  induction l generalizing x t with
  | nil =>
    simp only [forEachM, Prod.mk.injEq] at hf
    simp [startAll, hf.2]
  | cons a rest ih =>
    simp only [forEachM] at hf
    split at hf
    · next u1 x2 hstep =>
      simp only [startAll, hstep]
      rw [ih _ _ hf]
      simp
    · simp at hf

theorem startAll_first_throw {α : Type} (f : α → Ext → Res Unit) (tag : α → Event)
    (pre post : List α) (a : α) (x x1 x2 : Ext) (t : List Event) (u : Unit) (e : Err)
    (hpre : forEachM f pre x = (.ok u, x1)) (ha : f a x1 = (.error e, x2)) :
    startAll f tag (pre ++ a :: post) x t = (.error e, x2, t ++ (pre ++ [a]).map tag) := by
  induction pre generalizing x t with
  | nil =>
    simp only [forEachM, Prod.mk.injEq] at hpre
    obtain ⟨-, rfl⟩ := hpre
    simp [startAll, ha]
  | cons b rest ih =>
    simp only [forEachM] at hpre
    split at hpre
    · next u1 x3 hstep =>
      simp only [List.cons_append, startAll, hstep]
      have := ih x3 (t ++ [tag b]) hpre
      simp only [List.append_eq] at this ⊢
      rw [this]
      simp
    · simp at hpre

theorem loadModules_trace (h : Host) (mn : Val) (fns : List SetupEntry) (x : Ext)
    (t : List Event) :
    (loadModules h mn fns x t).2 = (startAll (runSetupEntry h mn) Event.setup fns x t).2 ∧
    (∀ u x1 t1, loadModules h mn fns x t = (.ok u, x1, t1) →
      startAll (runSetupEntry h mn) Event.setup fns x t = (.ok u, x1, t1)) := by
  unfold loadModules
  split
  · next e x1 t1 hs => rw [hs]; simp
  · next u x1 t1 hs => rw [hs]; simp

theorem execute_queues (h : Host) (w : World) :
    (execute h w).2.moduleFns = w.moduleFns ∧
    (execute h w).2.postInjectFns = w.postInjectFns ∧
    (execute h w).2.moduleName = w.moduleName := by
  unfold execute
  split <;> (repeat' split) <;> simp

theorem execute_trace_ok (h : Host) (w w1 : World) (v : Val)
    (he : execute h w = (.ok v, w1)) :
    w1.trace = w.trace ++ (w.moduleFns.map Event.setup ++ w.postInjectFns.map Event.post) := by
  unfold execute at he
  split at he
  · split at he
    · simp at he
    · next u x1 t1 hl =>
      split at he
      · simp at he
      · next u2 x2 t2 hp =>
        obtain ⟨-, rfl⟩ := Prod.mk.inj he
        have e1 := startAll_ok _ _ _ _ _ _ _ _ ((loadModules_trace _ _ _ _ _).2 _ _ _ hl)
        have e2 := startAll_ok _ _ _ _ _ _ _ _ hp
        simp [e1, e2]
  · next hlen =>
    have hnil : w.moduleFns = [] := by
      cases hm : w.moduleFns with
      | nil => rfl
      | cons a l => simp [hm] at hlen
    split at he
    · simp at he
    · next u2 x2 t2 hp =>
      obtain ⟨-, rfl⟩ := Prod.mk.inj he
      have e2 := startAll_ok _ _ _ _ _ _ _ _ hp
      simp [e2, hnil]

theorem execute_trace_prefix (h : Host) (w : World) :
    ∃ done, (execute h w).2.trace = w.trace ++ done ∧
      done <+: w.moduleFns.map Event.setup ++ w.postInjectFns.map Event.post := by
  unfold execute
  split
  · cases hl : loadModules h w.moduleName w.moduleFns w.ext w.trace with
    | mk r1 p1 =>
      obtain ⟨x1, t1⟩ := p1
      have htr := (loadModules_trace h w.moduleName w.moduleFns w.ext w.trace).1
      rw [hl] at htr
      cases r1 with
      | error e =>
        obtain ⟨done, h1, h2⟩ := startAll_prefix (runSetupEntry h w.moduleName) Event.setup
          w.moduleFns w.ext w.trace
        rw [← htr] at h1
        exact ⟨done, h1, h2.trans (List.prefix_append _ _)⟩
      | ok u =>
        have e1 := startAll_ok _ _ _ _ _ _ _ _ ((loadModules_trace _ _ _ _ _).2 _ _ _ hl)
        obtain ⟨done, h1, h2⟩ := startAll_prefix (runPostEntry h) Event.post
          w.postInjectFns x1 t1
        refine ⟨w.moduleFns.map Event.setup ++ done, ?_, ?_⟩
        · simp only []
          split
          · next hp => rw [hp] at h1; simp only [] at h1 ⊢; rw [h1, e1]; simp
          · next hp => rw [hp] at h1; simp only [] at h1 ⊢; rw [h1, e1]; simp
        · exact (List.prefix_append_right_inj _).2 h2
  · next hlen =>
    have hnil : w.moduleFns = [] := by
      cases hm : w.moduleFns with
      | nil => rfl
      | cons a l => simp [hm] at hlen
    obtain ⟨done, h1, h2⟩ := startAll_prefix (runPostEntry h) Event.post
      w.postInjectFns w.ext w.trace
    refine ⟨done, ?_, ?_⟩
    · split
      · next hp => rw [hp] at h1; simpa using h1
      · next hp => rw [hp] at h1; simpa using h1
    · simpa [hnil] using h2

/-- What `execute()` does when every callback returns. -/
theorem execute_all_ok (h : Host) (w : World) (x1 x2 : Ext)
    (hs : forEachM (runSetupEntry h w.moduleName) w.moduleFns w.ext = (.ok (), x1))
    (hp : forEachM (runPostEntry h) w.postInjectFns x1 = (.ok (), x2)) :
    execute h w =
      (.ok (if w.moduleFns.isEmpty then Val.undefined else h.moduleResult),
       { w with ext := x2,
                trace := w.trace ++
                  (w.moduleFns.map Event.setup ++ w.postInjectFns.map Event.post) }) := by
  have hpost := fun t => startAll_all_ok (runPostEntry h) Event.post w.postInjectFns x1 x2 t () hp
  cases hm : w.moduleFns with
  | nil =>
    rw [hm] at hs
    simp only [forEachM, Prod.mk.injEq, true_and] at hs
    subst hs
    simp [execute, hm, hpost]
  | cons a l =>
    have hload := startAll_all_ok (runSetupEntry h w.moduleName) Event.setup w.moduleFns
      w.ext x1 w.trace () hs
    simp [execute, hm, loadModules, hm ▸ hload, hpost]

/-- What `execute()` does when a setup entry throws. -/
theorem execute_setup_throw (h : Host) (w : World) (pre post : List SetupEntry)
    (e : SetupEntry) (x1 x2 : Ext) (err : Err)
    (hq : w.moduleFns = pre ++ e :: post)
    (hpre : forEachM (runSetupEntry h w.moduleName) pre w.ext = (.ok (), x1))
    (he : runSetupEntry h w.moduleName e x1 = (.error err, x2)) :
    execute h w =
      (.error (h.wrapModuleError err),
       { w with ext := x2, trace := w.trace ++ (pre ++ [e]).map Event.setup }) := by
  have hload := startAll_first_throw (runSetupEntry h w.moduleName) Event.setup pre post e
    w.ext x1 x2 w.trace () err hpre he
  have hne : (pre ++ e :: post).length ≠ 0 := by simp
  simp [execute, hq, loadModules, hload]

/-- What `execute()` does when a post-setup callback throws. -/
theorem execute_post_throw (h : Host) (w : World) (pre post : List PostEntry)
    (p : PostEntry) (x1 x2 x3 : Ext) (err : Err)
    (hs : forEachM (runSetupEntry h w.moduleName) w.moduleFns w.ext = (.ok (), x1))
    (hq : w.postInjectFns = pre ++ p :: post)
    (hpre : forEachM (runPostEntry h) pre x1 = (.ok (), x2))
    (hp : runPostEntry h p x2 = (.error err, x3)) :
    execute h w =
      (.error err,
       { w with ext := x3,
                trace := w.trace ++
                  (w.moduleFns.map Event.setup ++ (pre ++ [p]).map Event.post) }) := by
  have hpost := fun t => startAll_first_throw (runPostEntry h) Event.post pre post p
    x1 x2 x3 t () err hpre hp
  cases hm : w.moduleFns with
  | nil =>
    rw [hm] at hs
    simp only [forEachM, Prod.mk.injEq, true_and] at hs
    subst hs
    simp [execute, hm, hq, hpost]
  | cons a l =>
    have hload := startAll_all_ok (runSetupEntry h w.moduleName) Event.setup w.moduleFns
      w.ext x1 w.trace () hs
    simp [execute, hm, hq, loadModules, hm ▸ hload, hpost]

/-- **C1.** When `run()` returns normally the setup queue and the post-setup
queue are empty and the module identifier is `undefined`; the state is the one
`execute()` reached with `cleanUp()` applied, and `cleanUp()` leaves the Mock
Registry `mox.get` (and everything else callbacks act on) as `execute()` left
it: every name keeps the mock it had when the callbacks had finished. -/
theorem run_ok_resets_queues (h : Host) (w w1 : World) (r : Ret)
    (hrun : run h w = (.ok r, w1)) :
    w1.moduleFns = [] ∧ w1.postInjectFns = [] ∧ w1.moduleName = .undefined ∧
    ∃ v w0, execute h w = (.ok v, w0) ∧ r = .value v ∧ w1 = cleanUp w0 ∧
      w1.ext.get = w0.ext.get ∧
      ∀ name, hasKey name w1.ext.get = hasKey name w0.ext.get ∧
        getKey name w1.ext.get = getKey name w0.ext.get := by
  unfold run at hrun
  split at hrun
  · simp at hrun
  · next v w0 he =>
    simp only [Prod.mk.injEq, Except.ok.injEq] at hrun
    obtain ⟨rfl, rfl⟩ := hrun
    exact ⟨rfl, rfl, rfl, v, w0, he, rfl, rfl, rfl, fun _ => ⟨rfl, rfl⟩⟩

theorem run_ok_resets_queues_witness :
    (run sampleHost templatesWorld).2.moduleFns = [] ∧
    (run sampleHost templatesWorld).2.postInjectFns = [] ∧
    (run sampleHost templatesWorld).2.moduleName = .undefined ∧
    ∃ v w0, execute sampleHost templatesWorld = (.ok v, w0) ∧ Ret.value .undefined = .value v ∧
      (run sampleHost templatesWorld).2 = cleanUp w0 ∧
      (run sampleHost templatesWorld).2.ext.get = w0.ext.get ∧
      ∀ name, hasKey name (run sampleHost templatesWorld).2.ext.get = hasKey name w0.ext.get ∧
        getKey name (run sampleHost templatesWorld).2.ext.get = getKey name w0.ext.get :=
  run_ok_resets_queues sampleHost templatesWorld (run sampleHost templatesWorld).2
    (.value .undefined) rfl

/-- **C2**, as stated, fails: with `module("app")` and a `setupResults` whose
configuration names an unregistered mock, `run()` throws and leaves both
queues non-empty and the module identifier set. -/
theorem run_throw_resets_counterexample :
    ¬ ∀ (h : Host) (w w1 : World) (e : Err), run h w = (.error e, w1) →
        w1.moduleFns = [] ∧ w1.postInjectFns = [] ∧ w1.moduleName = .undefined := by
  intro hall
  have hrun : run sampleHost staleWorld =
      (.error (.error "Unknown is not in mox.get"), (run sampleHost staleWorld).2) := rfl
  have h2 := (hall sampleHost staleWorld _ _ hrun).2.1
  have h3 : (run sampleHost staleWorld).2.postInjectFns =
      [.setupResultsFn (.fn "config" 10 [])] := rfl
  rw [h3] at h2
  exact List.cons_ne_nil _ _ h2

/-- **C2**, amended.  When a callback throws while `run()` is executing,
`run()` throws that error and resets nothing: the setup queue, the post-setup
queue and the module identifier are what they were before `run()`, so after a
following cycle of registration calls the queues hold the stale entries
followed by the new ones. -/
theorem run_throw_keeps_queues (h : Host) (w w1 : World) (e : Err)
    (hrun : run h w = (.error e, w1)) :
    execute h w = (.error e, w1) ∧
    w1.moduleFns = w.moduleFns ∧ w1.postInjectFns = w.postInjectFns ∧
    w1.moduleName = w.moduleName ∧
    ∀ calls w2, applyCalls calls w1 = (.ok (), w2) →
      w2.moduleFns = w.moduleFns ++ calls.flatMap Call.setupEntries ∧
      w2.postInjectFns = w.postInjectFns ++ calls.flatMap Call.postEntries := by
  have hq := execute_queues h w
  unfold run at hrun
  split at hrun
  · next e0 w0 he =>
    simp only [Prod.mk.injEq, Except.error.injEq] at hrun
    obtain ⟨rfl, rfl⟩ := hrun
    rw [he] at hq
    refine ⟨he, hq.1, hq.2.1, hq.2.2, ?_⟩
    intro calls w2 hc
    obtain ⟨k1, k2, -, -⟩ := applyCalls_ok calls _ w2 hc
    exact ⟨by rw [k1, hq.1], by rw [k2, hq.2.1]⟩
  · simp at hrun

theorem run_throw_keeps_queues_witness :
    execute sampleHost staleWorld =
      (.error (.error "Unknown is not in mox.get"), (run sampleHost staleWorld).2) ∧
    (run sampleHost staleWorld).2.moduleFns = staleWorld.moduleFns ∧
    (run sampleHost staleWorld).2.postInjectFns = staleWorld.postInjectFns ∧
    (run sampleHost staleWorld).2.moduleName = staleWorld.moduleName ∧
    ∀ calls w2, applyCalls calls (run sampleHost staleWorld).2 = (.ok (), w2) →
      w2.moduleFns = staleWorld.moduleFns ++ calls.flatMap Call.setupEntries ∧
      w2.postInjectFns = staleWorld.postInjectFns ++ calls.flatMap Call.postEntries :=
  run_throw_keeps_queues sampleHost staleWorld (run sampleHost staleWorld).2
    (.error "Unknown is not in mox.get") rfl

/-- **C3**, as stated, fails: when the callback of the first `setupResults`
throws, the `mockTemplates` callback queued after it is never started. -/
theorem run_trace_counterexample :
    ¬ ∀ (h : Host) (calls : List Call) (w : World), applyCalls calls init = (.ok (), w) →
        (run h w).2.trace = expectedTrace calls := by
  intro hall
  have h1 := hall sampleHost throwingCalls (applyCalls throwingCalls init).2 rfl
  have h2 : (run sampleHost (applyCalls throwingCalls init).2).2.trace =
      [.post (.setupResultsFn (.fn "config" 10 []))] := rfl
  have h3 : expectedTrace throwingCalls =
      [.post (.setupResultsFn (.fn "config" 10 [])), .post (.mockTemplatesFn [.str "p"])] := rfl
  rw [h2, h3] at h1
  simp at h1

/-- **C3**, amended.  After a sequence of registration calls, each returning
normally, made on a registrar with empty queues, `run()` starts the callbacks
one after the other: the accumulated setup entries in the order they were
appended (handed to the module loader in that order), then the accumulated
post-setup callbacks in the order they were appended.  When every callback
returns, `run()` returns and has started each queued callback exactly once, in
that order.  The first callback that throws ends `run()`: the callbacks queued
after it are not started, and `run()` throws (the error of a post-setup
callback, or the error the module loader makes of the error of a setup
entry).  In every case what was started is an initial segment of the whole
sequence. -/
theorem run_trace (h : Host) (calls : List Call) (w0 w : World)
    (hsetup : w0.moduleFns = []) (hpost : w0.postInjectFns = [])
    (hc : applyCalls calls w0 = (.ok (), w)) :
    (∃ done, (run h w).2.trace = w0.trace ++ done ∧ done <+: expectedTrace calls ∧
      ∀ r, (run h w).1 = .ok r → done = expectedTrace calls) ∧
    (∀ x1 x2,
      forEachM (runSetupEntry h w.moduleName) (calls.flatMap Call.setupEntries) w0.ext =
        (.ok (), x1) →
      forEachM (runPostEntry h) (calls.flatMap Call.postEntries) x1 = (.ok (), x2) →
      run h w =
        (.ok (.value (if (calls.flatMap Call.setupEntries).isEmpty then Val.undefined
            else h.moduleResult)),
         cleanUp { w with ext := x2, trace := w0.trace ++ expectedTrace calls })) ∧
    (∀ pre e post x1 x2 err,
      calls.flatMap Call.setupEntries = pre ++ e :: post →
      forEachM (runSetupEntry h w.moduleName) pre w0.ext = (.ok (), x1) →
      runSetupEntry h w.moduleName e x1 = (.error err, x2) →
      run h w =
        (.error (h.wrapModuleError err),
         { w with ext := x2, trace := w0.trace ++ (pre ++ [e]).map Event.setup })) ∧
    (∀ pre p post x1 x2 x3 err,
      forEachM (runSetupEntry h w.moduleName) (calls.flatMap Call.setupEntries) w0.ext =
        (.ok (), x1) →
      calls.flatMap Call.postEntries = pre ++ p :: post →
      forEachM (runPostEntry h) pre x1 = (.ok (), x2) →
      runPostEntry h p x2 = (.error err, x3) →
      run h w =
        (.error err,
         { w with ext := x3,
                  trace := w0.trace ++ ((calls.flatMap Call.setupEntries).map Event.setup ++
                    (pre ++ [p]).map Event.post) })) := by
  obtain ⟨k1, k2, k3, k4⟩ := applyCalls_ok calls w0 w hc
  rw [hsetup, List.nil_append] at k1
  rw [hpost, List.nil_append] at k2
  refine ⟨?_, ?_, ?_, ?_⟩
  · obtain ⟨done, h1, h2⟩ := execute_trace_prefix h w
    rw [k1, k2] at h2
    rw [k4] at h1
    have hrt : (run h w).2.trace = (execute h w).2.trace := by
      unfold run
      split
      · next he => rw [he]
      · next he => rw [he]; rfl
    refine ⟨done, by rw [hrt, h1], h2, ?_⟩
    intro r hr
    unfold run at hr
    split at hr
    · simp at hr
    · next v w1 he =>
      have e1 := execute_trace_ok h w w1 v he
      rw [he] at h1
      simp only [] at h1
      rw [e1, k1, k2, k4] at h1
      exact (List.append_cancel_left h1).symm
  · intro x1 x2 hs hp
    rw [← k1, ← k3] at hs
    rw [← k2] at hp
    have he := execute_all_ok h w x1 x2 hs hp
    simp only [run, he, k1, k2, k4, expectedTrace]
  · intro pre e post x1 x2 err hq hpre he
    rw [← k1] at hq
    rw [← k3] at hpre
    have hx := execute_setup_throw h w pre post e x1 x2 err hq hpre he
    simp only [run, hx, k4]
  · intro pre p post x1 x2 x3 err hs hq hpre hp
    rw [← k1, ← k3] at hs
    rw [← k2] at hq
    have hx := execute_post_throw h w pre post p x1 x2 x3 err hs hq hpre hp
    simp only [run, hx, k1, k4]

theorem run_trace_witness :
    (run sampleHost (applyCalls cycleCalls init).2).2.trace = expectedTrace cycleCalls ∧
    run sampleHost (applyCalls throwingCalls init).2 =
      (.error (.error "Unknown is not in mox.get"),
       { (applyCalls throwingCalls init).2 with
         trace := [.post (.setupResultsFn (.fn "config" 10 []))] }) := by
  constructor
  · obtain ⟨done, h1, -, h3⟩ :=
      (run_trace sampleHost cycleCalls init (applyCalls cycleCalls init).2 rfl rfl rfl).1
    rw [h1, h3 _ rfl]
    rfl
  · exact (run_trace sampleHost throwingCalls init (applyCalls throwingCalls init).2 rfl rfl
      rfl).2.2.2 [] (.setupResultsFn (.fn "config" 10 [])) [.mockTemplatesFn [.str "p"]]
      init.ext init.ext init.ext (.error "Unknown is not in mox.get") rfl rfl rfl rfl

/-! ## The argument guard -/

theorem assert_spec (args : List Val) :
    (truthy (args.headD .undefined) = false →
      assertDeprecatedArguments args = .error (.error "Please provide arguments")) ∧
    (truthy (args.headD .undefined) = true → assertDeprecatedArguments args = .ok ()) := by
  unfold assertDeprecatedArguments
  constructor <;> intro ht <;> rw [ht] <;> rfl

theorem guarded_step (args : List Val) (w w2 : World) :
    ((match assertDeprecatedArguments args with
      | .error e => ((.error e : Except Err Ret), w)
      | .ok _ => (.ok .self, w2)) =
        if truthy (args.headD .undefined) then (.ok .self, w2)
        else (.error (.error "Please provide arguments"), w)) := by
  cases ht : truthy (args.headD .undefined) with
  | false => rw [(assert_spec args).1 ht]; simp
  | true => rw [(assert_spec args).2 ht]; simp

/-- **C8**, as stated, fails: `mockConstants("", 5)` is given two arguments
and throws the `Please provide arguments` error. -/
theorem guard_counterexample :
    ¬ ∀ op ∈ assertingMethods, ∀ (args : List Val) (w : World),
        ((op args w).1 = .error (.error "Please provide arguments") ↔ args = []) := by
  intro hall
  have h1 := (hall mockConstants (by simp [assertingMethods]) [.str "", .num 5] init).1 rfl
  simp at h1

/-- **C8**, amended.  Each of `mockServices`, `mockConstants`, `mockDirectives`,
`disableDirectives`, `mockControllers` and `mockTemplates` throws the
`Please provide arguments` error if and only if its first argument is missing
or falsy (`undefined`, `null`, `false`, `0`, the empty string), and then
leaves the registrar as it was; when the first argument is truthy it does not
throw and returns the registrar itself. -/
theorem guard_first_argument
    (op : List Val → World → Except Err Ret × World) (hop : op ∈ assertingMethods)
    (args : List Val) (w : World) :
    ((op args w).1 = .error (.error "Please provide arguments") ↔
      truthy (args.headD .undefined) = false) ∧
    ((op args w).1 = .ok .self ↔ truthy (args.headD .undefined) = true) ∧
    (truthy (args.headD .undefined) = false → (op args w).2 = w) := by
  simp only [assertingMethods, List.mem_cons, List.mem_singleton, List.not_mem_nil,
    or_false] at hop
  rcases hop with rfl | rfl | rfl | rfl | rfl | rfl <;>
    simp only [Mox.mockServices, Mox.mockConstants, Mox.mockDirectives, Mox.disableDirectives,
      Mox.mockControllers, Mox.mockTemplates, guarded_step] <;>
    cases truthy (args.headD .undefined) <;> simp

theorem guard_first_argument_witness :
    ((mockTemplates [.str "p"] init).1 = .error (.error "Please provide arguments") ↔
      truthy (([.str "p"] : List Val).headD .undefined) = false) ∧
    ((mockTemplates [.str "p"] init).1 = .ok .self ↔
      truthy (([.str "p"] : List Val).headD .undefined) = true) ∧
    (truthy (([.str "p"] : List Val).headD .undefined) = false →
      (mockTemplates [.str "p"] init).2 = init) :=
  guard_first_argument mockTemplates (by simp [assertingMethods]) [.str "p"] init

/-! ## Templates -/

theorem mockTemplatesFn_eq (templates : List Val) (x : Ext) :
    mockTemplatesFn templates x =
      (.ok (), { x with templateCache := x.templateCache ++ templates.map templateOf }) := by
  unfold mockTemplatesFn
  induction templates generalizing x with
  | nil => simp [forEachM]
  | cons t rest ih => simp only [forEachM]; rw [ih]; simp

theorem run_fresh_templates (h : Host) (args : List Val)
    (ht : truthy (args.headD .undefined) = true) :
    run h (mockTemplates args init).2 =
      (.ok (.value .undefined),
       { init with ext := { init.ext with templateCache := args.map templateOf },
                   trace := [.post (.mockTemplatesFn args)] }) := by
  have hq : (mockTemplates args init).2 =
      { init with postInjectFns := [.mockTemplatesFn args] } := by
    simp only [Mox.mockTemplates, guarded_step, ht]
    rfl
  rw [hq]
  simp only [run, execute, init, cleanUp, startAll, runPostEntry, mockTemplatesFn_eq]
  simp

/-- **C10**, as stated, fails: for the single entry `{a: "x", b: "y"}` the
template cache receives one `put`, of `b`, and never `a`. -/
theorem templates_counterexample :
    ¬ ∀ (h : Host) (args : List Val), args ≠ [] →
        (run h (mockTemplates args init).2).2.ext.templateCache = args.flatMap specPuts := by
  intro hall
  have h1 := hall sampleHost [.obj [("a", .str "x"), ("b", .str "y")]] (by simp)
  have h2 : (run sampleHost
      (mockTemplates [.obj [("a", .str "x"), ("b", .str "y")]] init).2).2.ext.templateCache =
      [(.str "b", .str "y")] := rfl
  have h3 : ([Val.obj [("a", .str "x"), ("b", .str "y")]]).flatMap specPuts =
      [(.str "a", .str "x"), (.str "b", .str "y")] := rfl
  rw [h2, h3] at h1
  simp at h1

/-- **C10**, amended.  For every list of entries whose first entry is truthy,
`mockTemplates` only queues one post-setup callback and puts nothing into the
template cache; when `run()` executes that callback the cache receives exactly
one `put` per entry, in argument order: for a path string `p` the placeholder
`<div>This is a mock for p</div>` under `p`, for a map its last path in
enumeration order with the body given for it (so for a map with one path, that
path with its body). -/
theorem templates_puts (h : Host) (args : List Val) (w : World)
    (ht : truthy (args.headD .undefined) = true) :
    (mockTemplates args w).1 = .ok .self ∧
    (mockTemplates args w).2.ext = w.ext ∧
    (mockTemplates args w).2.moduleFns = w.moduleFns ∧
    (mockTemplates args w).2.postInjectFns = w.postInjectFns ++ [.mockTemplatesFn args] ∧
    (∀ x, runPostEntry h (.mockTemplatesFn args) x =
      (.ok (), { x with templateCache := x.templateCache ++ args.map templateOf })) ∧
    (run h (mockTemplates args init).2).1 = .ok (.value .undefined) ∧
    (run h (mockTemplates args init).2).2.ext.templateCache = args.map templateOf ∧
    (∀ p, templateOf (.str p) = (.str p, .str ("<div>This is a mock for " ++ p ++ "</div>"))) ∧
    (∀ p body, templateOf (.obj [(p, body)]) = (.str p, body)) ∧
    (∀ props p body, templateOf (.obj (props ++ [(p, body)])) = (.str p, body)) := by
  have hq : mockTemplates args w =
      (.ok .self, { w with postInjectFns := w.postInjectFns ++ [.mockTemplatesFn args] }) := by
    simp only [Mox.mockTemplates, guarded_step, ht]
    rfl
  refine ⟨by rw [hq], by rw [hq], by rw [hq], by rw [hq], ?_, ?_, ?_, ?_, ?_, ?_⟩
  · intro x; exact mockTemplatesFn_eq args x
  · rw [run_fresh_templates h args ht]
  · rw [run_fresh_templates h args ht]
  · intro p; rfl
  · intro p body; rfl
  · intro props p body
    simp [templateOf, isString, forEachEntries, ownProps]

theorem templates_puts_witness :
    (mockTemplates [.str "p", .obj [("q", .str "<p/>")]] init).1 = .ok .self ∧
    (run sampleHost (mockTemplates [.str "p", .obj [("q", .str "<p/>")]] init).2).2.ext.templateCache =
      [(.str "p", .str "<div>This is a mock for p</div>"), (.str "q", .str "<p/>")] := by
  have hw := templates_puts sampleHost [.str "p", .obj [("q", .str "<p/>")]] init rfl
  exact ⟨hw.1, by rw [hw.2.2.2.2.2.2.1]; rfl⟩

/-! ## Association lists -/

theorem hasKey_setKey (k j : String) (v : Val) (p : Props) :
    hasKey k (setKey j v p) = (hasKey k p || j == k) := by
  induction p with
  | nil => simp [setKey, hasKey]
  | cons a rest ih =>
    obtain ⟨i, u⟩ := a
    simp only [setKey]
    split
    · next hij =>
      have : i = j := by simpa using hij
      subst this
      simp only [hasKey]
      cases hik : (i == k) <;> simp
    · simp only [hasKey, ih]
      cases (i == k) <;> simp

theorem getKey_setKey_same (k : String) (v : Val) (p : Props) :
    getKey k (setKey k v p) = v := by
  induction p with
  | nil => simp [setKey, getKey]
  | cons a rest ih =>
    obtain ⟨i, u⟩ := a
    simp only [setKey]
    split
    · next hik => simp only [getKey, hik, if_true]
    · next hik => simp only [getKey, hik]; simpa using ih

theorem getKey_setKey_other (k j : String) (v : Val) (p : Props) (hjk : j ≠ k) :
    getKey k (setKey j v p) = getKey k p := by
  induction p with
  | nil => simp [setKey, getKey, hjk]
  | cons a rest ih =>
    obtain ⟨i, u⟩ := a
    simp only [setKey]
    split
    · next hij =>
      have : i = j := by simpa using hij
      subst this
      simp [getKey, hjk]
    · simp only [getKey, ih]

theorem hasKey_iff_mem (k : String) (p : Props) : hasKey k p = true ↔ k ∈ keysOf p := by
  induction p with
  | nil => simp [hasKey, keysOf]
  | cons a rest ih =>
    obtain ⟨i, u⟩ := a
    simp only [hasKey, Bool.or_eq_true, ih, keysOf, List.map_cons, List.mem_cons]
    constructor
    · rintro (h | h)
      · left; exact (by simpa using h : i = k).symm
      · right; exact h
    · rintro (h | h)
      · left; simp [h]
      · right; exact h

/-! ## Constants -/

theorem assign_eq_setKey (k : String) (v : Val) (p : Props) (hk : k ≠ "__proto__") :
    assign k v p = setKey k v p := by
  simp [assign, hk]

theorem foldl_assign_eq (M : Props) (g : Props) (hM : "__proto__" ∉ keysOf M) :
    M.foldl (fun g kv => assign kv.1 kv.2 g) g = M.foldl (fun g kv => setKey kv.1 kv.2 g) g := by
  induction M generalizing g with
  | nil => rfl
  | cons a rest ih =>
    simp only [keysOf, List.map_cons, List.mem_cons, not_or] at hM
    simp only [List.foldl_cons]
    rw [assign_eq_setKey _ _ _ (fun hk => hM.1 hk.symm)]
    exact ih _ hM.2

theorem saveMock_constant (h : Host) (k : String) (v : Val) (x : Ext)
    (hacc : h.provide "constant" k v = .ok ()) :
    saveMock h (.str k) v (.str "constant") x =
      (.ok v, { x with provider := x.provider ++ [.register "constant" k v],
                       get := assign k v x.get }) := by
  have hverb : providerVerbs.contains "constant" = true := by decide
  have htr : truthy (.str "constant") = true := by decide
  simp only [saveMock, htr, if_true, toKey, hverb, hacc]

theorem mockConstantsFn_obj (h : Host) (M : Props) (x : Ext)
    (hacc : ∀ kv ∈ M, h.provide "constant" kv.1 kv.2 = .ok ()) :
    mockConstantsFn h (.obj M) x =
      (.ok (), { x with
        provider := x.provider ++ M.map (fun kv => ProviderCall.register "constant" kv.1 kv.2),
        get := M.foldl (fun g kv => assign kv.1 kv.2 g) x.get }) := by
  unfold mockConstantsFn
  simp only [forEachEntries, ownProps]
  induction M generalizing x with
  | nil => simp [forEachM]
  | cons a rest ih =>
    simp only [List.map_cons, forEachM,
      saveMock_constant h a.1 a.2 x (hacc a (List.mem_cons_self _ _))]
    rw [ih _ (fun kv hkv => hacc kv (List.mem_cons_of_mem _ hkv))]
    simp

theorem getKey_foldl_absent (n : String) (M : Props) (g : Props) (hn : n ∉ keysOf M) :
    getKey n (M.foldl (fun g kv => setKey kv.1 kv.2 g) g) = getKey n g := by
  induction M generalizing g with
  | nil => rfl
  | cons a rest ih =>
    simp only [keysOf, List.map_cons, List.mem_cons, not_or] at hn
    simp only [List.foldl_cons]
    rw [ih _ hn.2]
    exact getKey_setKey_other n a.1 a.2 g (fun h => hn.1 h.symm)

theorem getKey_foldl_present (n : String) (v : Val) (M : Props) (g : Props)
    (hM : (n, v) ∈ M) (hnd : (keysOf M).Nodup) :
    getKey n (M.foldl (fun g kv => setKey kv.1 kv.2 g) g) = v := by
  induction M generalizing g with
  | nil => simp at hM
  | cons a rest ih =>
    simp only [keysOf, List.map_cons, List.nodup_cons] at hnd
    simp only [List.foldl_cons]
    rcases List.mem_cons.1 hM with h | h
    · subst h
      rw [getKey_foldl_absent n rest _ hnd.1]
      exact getKey_setKey_same n v g
    · exact ih _ h hnd.2

theorem hasKey_foldl (n : String) (M : Props) (g : Props) :
    hasKey n (M.foldl (fun g kv => setKey kv.1 kv.2 g) g) = (hasKey n g || hasKey n M) := by
  induction M generalizing g with
  | nil => simp [hasKey]
  | cons a rest ih =>
    simp only [List.foldl_cons, ih, hasKey_setKey, hasKey]
    cases hasKey n g <;> cases (a.1 == n) <;> simp

theorem filter_isFor_present (n : String) (v : Val) (M : Props)
    (hM : (n, v) ∈ M) (hnd : (keysOf M).Nodup) :
    (M.map (fun kv => ProviderCall.register "constant" kv.1 kv.2)).filter
      (ProviderCall.isFor n) = [.register "constant" n v] := by
  induction M with
  | nil => simp at hM
  | cons a rest ih =>
    simp only [keysOf, List.map_cons, List.nodup_cons] at hnd
    rcases List.mem_cons.1 hM with h | h
    · subst h
      have hrest : (rest.map (fun kv => ProviderCall.register "constant" kv.1 kv.2)).filter
          (ProviderCall.isFor n) = [] := by
        rw [List.filter_eq_nil_iff]
        intro c hc
        obtain ⟨kv, hkv, rfl⟩ := List.mem_map.1 hc
        simp only [ProviderCall.isFor, beq_iff_eq]
        intro hk
        exact hnd.1 (List.mem_map.2 ⟨kv, hkv, hk⟩)
      simp [List.filter_cons, ProviderCall.isFor, hrest]
    · have hne : a.1 ≠ n := by
        intro hk
        exact hnd.1 (hk ▸ List.mem_map.2 ⟨(n, v), h, rfl⟩)
      simp [List.filter_cons, ProviderCall.isFor, hne, ih h hnd.2]

/-- **C9**, as stated, fails for the empty name: `mockConstants("", 5)` throws
and queues nothing, `mockConstants({"": 5})` queues its callback. -/
theorem constants_counterexample :
    ¬ ∀ (n : String) (v : Val) (w : World),
        mockConstants [.str n, v] w = mockConstants [.obj [(n, v)]] w := by
  intro hall
  have h1 := congrArg Prod.fst (hall "" (.num 5) init)
  have h2 : (mockConstants [.str "", .num 5] init).1 =
      .error (.error "Please provide arguments") := rfl
  have h3 : (mockConstants [.obj [("", .num 5)]] init).1 = .ok .self := rfl
  rw [h2, h3] at h1
  simp at h1

/-- **C9**, amended.  For every non-empty constant name `n`, value `v` and
ordinary map `M` (distinct keys, none of them `length`, `forEach`,
`hasOwnProperty` or `__proto__`) with `M[n] = v`, all of whose constants the
provider accepts: `mockConstants(n, v)` and `mockConstants({n: v})` return the
same state, having queued the same callback; and the callbacks queued by
`mockConstants(n, v)` and by `mockConstants(M)`, run from the same state, both
return normally, both hand the provider exactly one call naming `n`, namely
`constant(n, v)`, and both leave `n` mapped to `v` in the Mock Registry. -/
theorem constants_forms_agree (n : String) (v : Val) (M : Props) (w : World) (x : Ext)
    (h : Host) (moduleName : Val)
    (hn : n ≠ "") (hM : (n, v) ∈ M) (hord : ordinary M)
    (hacc : ∀ kv ∈ M, h.provide "constant" kv.1 kv.2 = .ok ()) :
    mockConstants [.str n, v] w = mockConstants [.obj [(n, v)]] w ∧
    mockConstants [.str n, v] w =
      (.ok .self, { w with moduleFns := w.moduleFns ++ [.mockConstantsFn (.obj [(n, v)])] }) ∧
    mockConstants [.obj M] w =
      (.ok .self, { w with moduleFns := w.moduleFns ++ [.mockConstantsFn (.obj M)] }) ∧
    ∃ x1 x2 new1 new2,
      runSetupEntry h moduleName (.mockConstantsFn (.obj [(n, v)])) x = (.ok (), x1) ∧
      runSetupEntry h moduleName (.mockConstantsFn (.obj M)) x = (.ok (), x2) ∧
      x1.provider = x.provider ++ new1 ∧ x2.provider = x.provider ++ new2 ∧
      new1.filter (ProviderCall.isFor n) = [.register "constant" n v] ∧
      new2.filter (ProviderCall.isFor n) = [.register "constant" n v] ∧
      hasKey n x1.get = true ∧ hasKey n x2.get = true ∧
      getKey n x1.get = v ∧ getKey n x2.get = v := by
  obtain ⟨hnd, hspecial⟩ := hord
  have hprotoM : "__proto__" ∉ keysOf M := hspecial _ (by decide)
  have hnM : n ∈ keysOf M := List.mem_map.2 ⟨(n, v), hM, rfl⟩
  have hproto : n ≠ "__proto__" := fun hk => hprotoM (hk ▸ hnM)
  have ht : truthy (([.str n, v] : List Val).headD .undefined) = true := by
    simp [truthy, hn]
  have hmem : hasKey n M = true := (hasKey_iff_mem n M).2 hnM
  have hcfg : constantsConfig [.str n, v] = .obj [(n, v)] := by
    simp [constantsConfig, isString, toKey, assign, hproto, setKey]
  have e1 : mockConstants [.str n, v] w =
      (.ok .self, { w with moduleFns := w.moduleFns ++ [.mockConstantsFn (.obj [(n, v)])] }) := by
    simp only [Mox.mockConstants, guarded_step, ht, hcfg]
    rfl
  have e2 : ∀ P : Props, mockConstants [.obj P] w =
      (.ok .self, { w with moduleFns := w.moduleFns ++ [.mockConstantsFn (.obj P)] }) := by
    intro P
    simp only [Mox.mockConstants, guarded_step]
    rfl
  have hacc1 : ∀ kv ∈ [(n, v)], h.provide "constant" kv.1 kv.2 = .ok () := by
    intro kv hkv
    rw [List.mem_singleton] at hkv
    subst hkv
    exact hacc _ hM
  refine ⟨by rw [e1, e2], e1, e2 M, _, _, _, _, mockConstantsFn_obj h _ x hacc1,
    mockConstantsFn_obj h _ x hacc, rfl, rfl, ?_, ?_, ?_, ?_, ?_, ?_⟩
  · simp [ProviderCall.isFor]
  · exact filter_isFor_present n v M hM hnd
  · simp [assign, hproto, hasKey_setKey]
  · simp only [foldl_assign_eq M _ hprotoM, hasKey_foldl, hmem, Bool.or_true]
  · simp only [List.foldl_cons, List.foldl_nil, assign_eq_setKey _ _ _ hproto]
    exact getKey_setKey_same n v x.get
  · simp only [foldl_assign_eq M _ hprotoM]
    exact getKey_foldl_present n v M x.get hM hnd

theorem constants_forms_agree_witness :
    mockConstants [.str "X", .num 5] init = mockConstants [.obj [("X", .num 5)]] init ∧
    ∃ x1 x2 new1 new2,
      runSetupEntry sampleHost .undefined (.mockConstantsFn (.obj [("X", .num 5)])) init.ext =
        (.ok (), x1) ∧
      runSetupEntry sampleHost .undefined
        (.mockConstantsFn (.obj [("X", .num 5), ("Y", .num 6)])) init.ext = (.ok (), x2) ∧
      x1.provider = init.ext.provider ++ new1 ∧ x2.provider = init.ext.provider ++ new2 ∧
      new1.filter (ProviderCall.isFor "X") = [.register "constant" "X" (.num 5)] ∧
      new2.filter (ProviderCall.isFor "X") = [.register "constant" "X" (.num 5)] ∧
      hasKey "X" x1.get = true ∧ hasKey "X" x2.get = true ∧
      getKey "X" x1.get = .num 5 ∧ getKey "X" x2.get = .num 5 := by
  have hw := constants_forms_agree "X" (.num 5) [("X", .num 5), ("Y", .num 6)] init init.ext
    sampleHost .undefined (by decide) (by simp) (by decide)
    (by
      intro kv hkv
      simp only [List.mem_cons, List.mem_singleton, List.not_mem_nil, or_false] at hkv
      rcases hkv with rfl | rfl <;> rfl)
  exact ⟨hw.1, hw.2.2.2⟩

/-! ## Iteration and the spy heap -/

theorem forEachM_append_ok {α : Type} (f : α → Ext → Res Unit) (l rest : List α)
    (x x1 : Ext) (u : Unit) (hl : forEachM f l x = (.ok u, x1)) :
    forEachM f (l ++ rest) x = forEachM f rest x1 := by
  induction l generalizing x with
  | nil =>
    simp only [forEachM, Prod.mk.injEq] at hl
    rw [List.nil_append, hl.2]
  | cons a l ih =>
    simp only [List.cons_append, forEachM] at hl ⊢
    split at hl
    · next u1 x2 hf => exact ih _ hl
    · simp at hl

theorem forEachM_error_head {α : Type} (f : α → Ext → Res Unit) (a : α) (rest : List α)
    (x x1 : Ext) (e : Err) (hf : f a x = (.error e, x1)) :
    forEachM f (a :: rest) x = (.error e, x1) := by
  simp only [forEachM, hf]

theorem forEachM_invariant {α β : Type} (f : α → Ext → Res Unit) (g : Ext → β)
    (hf : ∀ a x, g (f a x).2 = g x) (l : List α) (x : Ext) :
    g (forEachM f l x).2 = g x := by
  induction l generalizing x with
  | nil => rfl
  | cons a l ih =>
    simp only [forEachM]
    split
    · next u x1 h1 =>
      rw [ih x1]
      have := hf a x
      rw [h1] at this
      exact this
    · next e x1 h1 =>
      have := hf a x
      rw [h1] at this
      exact this

theorem length_updateCell (ref : Nat) (f : SpyCell → SpyCell) (l : List SpyCell) :
    (updateCell ref f l).length = l.length := by
  induction l generalizing ref with
  | nil => simp [updateCell]
  | cons c l ih =>
    cases ref with
    | zero => simp [updateCell]
    | succ n => simp [updateCell, ih]

theorem get?_updateCell_same (ref : Nat) (f : SpyCell → SpyCell) (l : List SpyCell) :
    (updateCell ref f l).get? ref = (l.get? ref).map f := by
  induction l generalizing ref with
  | nil => simp [updateCell]
  | cons c l ih =>
    cases ref with
    | zero => simp [updateCell]
    | succ n => simpa [updateCell] using ih n

theorem get?_updateCell_other (ref r : Nat) (f : SpyCell → SpyCell) (l : List SpyCell)
    (hne : r ≠ ref) : (updateCell ref f l).get? r = l.get? r := by
  induction l generalizing ref r with
  | nil => simp [updateCell]
  | cons c l ih =>
    cases ref with
    | zero =>
      cases r with
      | zero => exact absurd rfl hne
      | succ m => simp [updateCell]
    | succ n =>
      cases r with
      | zero => simp [updateCell]
      | succ m => simpa [updateCell] using ih n m (fun h => hne (by rw [h]))

theorem configureSpy_frame (second : Bool) (target : Val) (call : SpyCall) (x : Ext) :
    (configureSpy second target call x).2.get = x.get ∧
    (configureSpy second target call x).2.spies.length = x.spies.length := by
  unfold configureSpy
  split
  · split
    · split
      · exact ⟨rfl, length_updateCell _ _ _⟩
      · exact ⟨rfl, rfl⟩
    · exact ⟨rfl, rfl⟩
  · exact ⟨rfl, rfl⟩

theorem setSpyResult_frame (iJ : Bool) (spy v : Val) (x : Ext) :
    (setSpyResult iJ spy v x).2.get = x.get ∧
    (setSpyResult iJ spy v x).2.spies.length = x.spies.length := by
  unfold setSpyResult
  split <;> split <;> exact configureSpy_frame _ _ _ _

theorem setupMethod_frame (h : Host) (name : String) (mock : Val) (vk : Val × Val) (x : Ext) :
    ((setupMethod h name mock vk x).2.get, (setupMethod h name mock vk x).2.spies.length) =
      (x.get, x.spies.length) := by
  unfold setupMethod
  split
  · rfl
  · rfl
  · rw [(setSpyResult_frame _ _ _ _).1, (setSpyResult_frame _ _ _ _).2]

theorem setupMock_frame (h : Host) (vk : Val × Val) (x : Ext) :
    ((setupMock h vk x).2.get, (setupMock h vk x).2.spies.length) =
      (x.get, x.spies.length) := by
  unfold setupMock
  split
  · simp only []
    split
    · rfl
    · exact forEachM_invariant _ (fun x => (x.get, x.spies.length))
        (setupMethod_frame h _ _) _ x
    · rw [(setSpyResult_frame _ _ _ _).1, (setSpyResult_frame _ _ _ _).2]
  · rfl

theorem setupMocks_frame (h : Host) (l : List (Val × Val)) (x x1 : Ext) (r : Except Err Unit)
    (hl : forEachM (setupMock h) l x = (r, x1)) :
    x1.get = x.get ∧ x1.spies.length = x.spies.length := by
  have := forEachM_invariant (setupMock h) (fun x => (x.get, x.spies.length))
    (setupMock_frame h) l x
  rw [hl] at this
  simp only [Prod.mk.injEq] at this
  exact this

/-- The configuration call `setSpyResult` makes for a value: it is of the
generation the flag tells, and installs the value as a fake when it is
callable, as a return value otherwise. -/
theorem setSpyResult_spy (iJ : Bool) (r : Nat) (v : Val) (x : Ext) (hr : r < x.spies.length) :
    ∃ call, call.plan = (if isFunction v then Plan.fake v else Plan.returns v) ∧
      setSpyResult iJ (.spy r) v x =
        (.ok (), { x with
          spies := updateCell r (fun c => { c with calls := c.calls ++ [call] }) x.spies }) := by
  unfold setSpyResult
  cases hv : isFunction v <;> cases iJ
  · exact ⟨.andReturn v, rfl, by simp [configureSpy, hr, SpyCall.isSecond]⟩
  · exact ⟨.and_returnValue v, rfl, by simp [configureSpy, hr, SpyCall.isSecond]⟩
  · exact ⟨.andCallFake v, rfl, by simp [configureSpy, hr, SpyCall.isSecond]⟩
  · exact ⟨.and_callFake v, rfl, by simp [configureSpy, hr, SpyCall.isSecond]⟩

theorem plan_after_call (c : SpyCell) (call : SpyCall) :
    ({ c with calls := c.calls ++ [call] } : SpyCell).plan = call.plan := by
  simp [SpyCell.plan]

/-! ## `setupResults`: errors -/

theorem setupMock_unregistered (h : Host) (vk : Val × Val) (x : Ext)
    (hk : inRegistry h x (toKey vk.2) = false) :
    setupMock h vk x = (.error (.error (toKey vk.2 ++ " is not in mox.get")), x) := by
  simp [setupMock, hk]

theorem setupMock_missing_method (h : Host) (vk m : Val × Val) (mpre mpost : List (Val × Val))
    (x x2 : Ext)
    (hk : inRegistry h x (toKey vk.2) = true)
    (hform : isObjectForm vk.1 = .ok true)
    (hentries : forEachEntries vk.1 = mpre ++ m :: mpost)
    (hpre : forEachM (setupMethod h (toKey vk.2) (readProp h x (toKey vk.2) (.obj x.get)))
      mpre x = (.ok (), x2))
    (hmiss : hasIn h x2 (toKey m.2) (readProp h x (toKey vk.2) (.obj x.get)) = .ok false) :
    setupMock h vk x =
      (.error (.error ("Could not mock return value. No method " ++ toKey m.2 ++
        " created in mock for " ++ toKey vk.2)), x2) := by
  simp only [setupMock, hk, if_true, hform, hentries]
  rw [forEachM_append_ok _ _ _ _ _ _ hpre]
  apply forEachM_error_head
  simp only [setupMethod, hmiss]

theorem inRegistry_congr (h : Host) (x x1 : Ext) (k : String) (hg : x1.get = x.get) :
    inRegistry h x1 k = inRegistry h x k := by
  simp only [inRegistry, hg]

theorem readRegistry_congr (h : Host) (x x1 : Ext) (k : String) (hg : x1.get = x.get) :
    readProp h x1 k (.obj x1.get) = readProp h x k (.obj x.get) := by
  simp only [readProp, keptProps, hg]

set_option maxRecDepth 100000 in
/-- **C5**, as stated, fails: with `Known` registered and `Unknown` not, the
configuration `{Known: {missing: 1}, Unknown: 5}` makes the callback throw the
error of the first entry, whose message does not contain `Unknown`. -/
theorem setupResults_error_counterexample :
    ¬ ∀ (h : Host) (configFn config : Val) (x x0 : Ext) (name : String),
        callVal h configFn [] x = (.ok config, x0) →
        name ∈ (forEachEntries config).map (fun vk => toKey vk.2) →
        inRegistry h x0 name = false →
        ∃ msg, (runPostEntry h (.setupResultsFn configFn) x).1 = .error (.error msg) ∧
          name.data <:+: msg.data := by
  intro hall
  obtain ⟨msg, h1, h2⟩ := hall sampleHost (.fn "config" 11 [])
    (.obj [("Known", .obj [("missing", .num 1)]), ("Unknown", .num 5)]) knownExt knownExt
    "Unknown" rfl (by simp [forEachEntries, ownProps, toKey]) rfl
  have h3 : (runPostEntry sampleHost (.setupResultsFn (.fn "config" 11 [])) knownExt).1 =
      .error (.error
        "Could not mock return value. No method missing created in mock for Known") := rfl
  rw [h3] at h1
  simp only [Except.error.injEq, Err.error.injEq] at h1
  subst h1
  revert h2
  decide

/-- **C5**, amended.  `setupResults` itself never throws.  Its callback handles
the entries of the configuration (an ordinary object) in enumeration order and
the first entry that fails ends it.  When the entries before an entry are
handled without error and the name of that entry is not in the Mock Registry
(`name in mox.get` is false: it is neither registered nor a name every object
has, such as `toString`), the callback throws `<name> is not in mox.get`.
When that entry is in object form for a name in the registry, the methods
before one of its methods are handled without error and `method in mock` is
false for that method, the callback throws `Could not mock return value. No
method <method> created in mock for <name>`. -/
theorem setupResults_errors (h : Host) (configFn : Val) (cfg : Props) (w : World)
    (x x0 x1 : Ext) (pre post : List (Val × Val)) (vk : Val × Val)
    (hcall : callVal h configFn [] x = (.ok (.obj cfg), x0))
    (_hord : ordinary cfg)
    (hcfg : forEachEntries (.obj cfg) = pre ++ vk :: post)
    (hpre : forEachM (setupMock h) pre x0 = (.ok (), x1)) :
    (setupResults configFn w).1 = .ok .self ∧
    (inRegistry h x0 (toKey vk.2) = false →
      runPostEntry h (.setupResultsFn configFn) x =
        (.error (.error (toKey vk.2 ++ " is not in mox.get")), x1)) ∧
    (∀ (mcfg : Props) (m : Val × Val) (mpre mpost : List (Val × Val)) (x2 : Ext),
      inRegistry h x0 (toKey vk.2) = true →
      vk.1 = .obj mcfg → ordinary mcfg → hasKey "constructor" mcfg = false →
      forEachEntries vk.1 = mpre ++ m :: mpost →
      forEachM (setupMethod h (toKey vk.2) (readProp h x0 (toKey vk.2) (.obj x0.get)))
        mpre x1 = (.ok (), x2) →
      hasIn h x2 (toKey m.2) (readProp h x0 (toKey vk.2) (.obj x0.get)) = .ok false →
      runPostEntry h (.setupResultsFn configFn) x =
        (.error (.error ("Could not mock return value. No method " ++ toKey m.2 ++
          " created in mock for " ++ toKey vk.2)), x2)) := by
  have hget : x1.get = x0.get := (setupMocks_frame h pre x0 x1 _ hpre).1
  have hrun : runPostEntry h (.setupResultsFn configFn) x =
      forEachM (setupMock h) (vk :: post) x1 := by
    simp only [runPostEntry, Mox.setupResultsFn, hcall, hcfg]
    exact forEachM_append_ok _ _ _ _ _ _ hpre
  refine ⟨rfl, ?_, ?_⟩
  · intro hk
    rw [hrun]
    apply forEachM_error_head
    exact setupMock_unregistered _ _ _ (by rw [inRegistry_congr h x0 x1 _ hget]; exact hk)
  · intro mcfg m mpre mpost x2 hk hobj _ hctor hentries hmpre hmiss
    rw [hrun]
    apply forEachM_error_head
    have hform : isObjectForm vk.1 = .ok true := by
      rw [hobj]; simp [isObjectForm, hctor]
    rw [← inRegistry_congr h x0 x1 _ hget] at hk
    rw [← readRegistry_congr h x0 x1 _ hget] at hmpre hmiss
    exact setupMock_missing_method h vk m mpre mpost x1 x2 hk hform hentries hmpre hmiss

theorem setupResults_errors_witness :
    runPostEntry sampleHost (.setupResultsFn (.fn "config" 10 [])) init.ext =
      (.error (.error "Unknown is not in mox.get"), init.ext) ∧
    runPostEntry sampleHost (.setupResultsFn (.fn "config" 11 [])) knownExt =
      (.error (.error
        "Could not mock return value. No method missing created in mock for Known"),
        knownExt) :=
  ⟨(setupResults_errors sampleHost (.fn "config" 10 []) [("Unknown", .num 1)] init
      init.ext init.ext init.ext [] [] (.num 1, .str "Unknown") rfl (by decide) rfl rfl).2.1 rfl,
   (setupResults_errors sampleHost (.fn "config" 11 [])
      [("Known", .obj [("missing", .num 1)]), ("Unknown", .num 5)] init
      knownExt knownExt knownExt [] [(.num 5, .str "Unknown")]
      (.obj [("missing", .num 1)], .str "Known") rfl (by decide) rfl rfl).2.2
      [("missing", .num 1)] (.num 1, .str "missing") [] [] knownExt rfl rfl (by decide) rfl
      rfl rfl rfl⟩

/-! ## `setupResults`: installed behaviour -/

theorem get?_of_lt (l : List SpyCell) (r : Nat) (hr : r < l.length) : ∃ c, l.get? r = some c := by
  cases hc : l.get? r with
  | some c => exact ⟨c, rfl⟩
  | none =>
    rw [List.get?_eq_none] at hc
    omega

theorem setupMethods_install (h : Host) (name : String) (props : Props)
    (es : List (Val × Val)) (x : Ext)
    (hspy : ∀ e ∈ es, hasKey (toKey e.2) props = true ∧
      ∃ r, getKey (toKey e.2) props = .spy r ∧ r < x.spies.length)
    (hnd : (es.map (fun e => getKey (toKey e.2) props)).Nodup) :
    ∃ x1, forEachM (setupMethod h name (.obj props)) es x = (.ok (), x1) ∧
      x1.spies.length = x.spies.length ∧ x1.get = x.get ∧
      (∀ e ∈ es, ∀ r, getKey (toKey e.2) props = .spy r →
        ∃ c, x1.spies.get? r = some c ∧
          c.plan = if isFunction e.1 then Plan.fake e.1 else Plan.returns e.1) ∧
      (∀ r, Val.spy r ∉ es.map (fun e => getKey (toKey e.2) props) →
        x1.spies.get? r = x.spies.get? r) := by
  induction es generalizing x with
  | nil => exact ⟨x, rfl, rfl, rfl, by simp, fun _ _ => rfl⟩
  | cons e rest ih =>
    obtain ⟨hk, r, hgr, hr⟩ := hspy e (List.mem_cons_self _ _)
    obtain ⟨call, hplan, hset⟩ := setSpyResult_spy h.isJasmine2 r e.1 x hr
    have hstep : setupMethod h name (.obj props) e x =
        (.ok (), { x with
          spies := updateCell r (fun c => { c with calls := c.calls ++ [call] }) x.spies }) := by
      simp only [setupMethod, hasIn, isPrimitive, keptProps, hk, readProp, hgr, hset,
        Bool.false_eq_true, if_false, Bool.true_or, if_true]
    simp only [List.map_cons, List.nodup_cons] at hnd
    obtain ⟨x1, h1, h2, h3, h4, h5⟩ := ih
      { x with spies := updateCell r (fun c => { c with calls := c.calls ++ [call] }) x.spies }
      (fun e1 he1 => by
        obtain ⟨a, r1, b, c⟩ := hspy e1 (List.mem_cons_of_mem _ he1)
        exact ⟨a, r1, b, by simpa [length_updateCell] using c⟩)
      hnd.2
    refine ⟨x1, ?_, ?_, ?_, ?_, ?_⟩
    · simp only [forEachM, hstep]; exact h1
    · rw [h2]; simp [length_updateCell]
    · rw [h3]
    · intro e1 he1 r1 hr1
      rcases List.mem_cons.1 he1 with rfl | hmem
      · have hrr : r1 = r := by
          rw [hgr] at hr1
          exact (Val.spy.inj hr1).symm
        subst hrr
        have hnot : Val.spy r1 ∉ rest.map (fun e => getKey (toKey e.2) props) := by
          rw [← hgr]; exact hnd.1
        rw [h5 r1 hnot]
        simp only [get?_updateCell_same]
        obtain ⟨c0, hc0⟩ := get?_of_lt x.spies r1 hr
        refine ⟨_, by rw [hc0]; rfl, ?_⟩
        rw [plan_after_call, hplan]
      · exact h4 e1 hmem r1 hr1
    · intro r1 hr1
      simp only [List.map_cons, List.mem_cons, not_or] at hr1
      rw [h5 r1 hr1.2]
      apply get?_updateCell_other
      intro hrr
      apply hr1.1
      rw [hgr, hrr]

/-- **C6**, as stated, fails: with a single callable spy registered as `Fn`, the
entry `Fn: {a: 1}` is read as a method map and the callback throws instead of
installing `{a: 1}` as the return value of the spy. -/
theorem setupResults_install_counterexample :
    ¬ ∀ (h : Host) (configFn : Val) (name : String) (mc : Val) (x x0 : Ext) (r : Nat),
        callVal h configFn [] x = (.ok (.obj [(name, mc)]), x0) →
        hasKey name x0.get = true → getKey name x0.get = .spy r → r < x0.spies.length →
        ∃ x1 c, runPostEntry h (.setupResultsFn configFn) x = (.ok (), x1) ∧
          x1.spies.get? r = some c ∧
          c.plan = if isFunction mc then Plan.fake mc else Plan.returns mc := by
  intro hall
  obtain ⟨x1, c, h1, -, -⟩ := hall sampleHost (.fn "config" 12 []) "Fn"
    (.obj [("a", .num 1)]) fnExt fnExt 0 rfl rfl rfl (by decide)
  have h2 : runPostEntry sampleHost (.setupResultsFn (.fn "config" 12 [])) fnExt =
      (.error (.error "Could not mock return value. No method a created in mock for Fn"),
        fnExt) := rfl
  rw [h2] at h1
  simp at h1

/-- **C6**, amended.  Let the configuration be an ordinary object, let the
entries before the entry `name: entry` be handled without error, and let
`name` be registered.  When the entry is an ordinary plain object without an
own `constructor` key it is read as a method map: if the mock is a spy object
on which every method named has a spy of its own, then handling the entry
installs on each such spy the configured value, as its fake implementation
when the value is callable and as its fixed return value otherwise.  When the
entry is not a plain object (and not `null`) and the mock is a single callable
spy, the entry is installed on the mock itself by the same rule.  The
callback then goes on with the remaining entries from that state, which is
its final state when the entry is the last one.  The host is arbitrary: under
either generation of the spy framework the call made is one that generation
has, and the behaviour installed is the same. -/
theorem setupResults_installs (h : Host) (configFn : Val) (cfg : Props)
    (pre post : List (Val × Val)) (name : String) (mc : Val) (x x0 x1 : Ext)
    (hcall : callVal h configFn [] x = (.ok (.obj cfg), x0))
    (_hord : ordinary cfg)
    (hcfg : forEachEntries (.obj cfg) = pre ++ (mc, .str name) :: post)
    (hpre : forEachM (setupMock h) pre x0 = (.ok (), x1))
    (hreg : hasKey name x0.get = true) :
    (∀ (mcfg props : Props), mc = .obj mcfg → ordinary mcfg →
      hasKey "constructor" mcfg = false →
      getKey name x0.get = .obj props →
      (∀ kv ∈ mcfg, hasKey kv.1 props = true ∧
        ∃ r, getKey kv.1 props = .spy r ∧ r < x0.spies.length) →
      (mcfg.map (fun kv => getKey kv.1 props)).Nodup →
      ∃ x2, setupMock h (mc, .str name) x1 = (.ok (), x2) ∧
        runPostEntry h (.setupResultsFn configFn) x = forEachM (setupMock h) post x2 ∧
        (post = [] → runPostEntry h (.setupResultsFn configFn) x = (.ok (), x2)) ∧
        x2.get = x0.get ∧
        ∀ kv ∈ mcfg, ∀ r, getKey kv.1 props = .spy r →
          ∃ c, x2.spies.get? r = some c ∧
            c.plan = if isFunction kv.2 then Plan.fake kv.2 else Plan.returns kv.2) ∧
    (∀ r, getKey name x0.get = .spy r → r < x0.spies.length → isObjectForm mc = .ok false →
      ∃ x2 c, setupMock h (mc, .str name) x1 = (.ok (), x2) ∧
        runPostEntry h (.setupResultsFn configFn) x = forEachM (setupMock h) post x2 ∧
        (post = [] → runPostEntry h (.setupResultsFn configFn) x = (.ok (), x2)) ∧
        x2.get = x0.get ∧ x2.spies.get? r = some c ∧
        c.plan = if isFunction mc then Plan.fake mc else Plan.returns mc) := by
  obtain ⟨hget, hlen⟩ := setupMocks_frame h pre x0 x1 _ hpre
  have hrun : runPostEntry h (.setupResultsFn configFn) x =
      forEachM (setupMock h) ((mc, .str name) :: post) x1 := by
    simp only [runPostEntry, Mox.setupResultsFn, hcall, hcfg]
    exact forEachM_append_ok _ _ _ _ _ _ hpre
  have hin : inRegistry h x1 name = true := by
    simp [inRegistry, hget, hreg]
  have hread : readProp h x1 name (.obj x1.get) = getKey name x0.get := by
    simp [readProp, keptProps, hget, hreg]
  have hrest : ∀ x2, setupMock h (mc, .str name) x1 = (.ok (), x2) →
      runPostEntry h (.setupResultsFn configFn) x = forEachM (setupMock h) post x2 ∧
      (post = [] → runPostEntry h (.setupResultsFn configFn) x = (.ok (), x2)) := by
    intro x2 h2
    have : runPostEntry h (.setupResultsFn configFn) x = forEachM (setupMock h) post x2 := by
      rw [hrun]; simp only [forEachM, h2]
    exact ⟨this, fun hp => by rw [this, hp]; rfl⟩
  constructor
  · intro mcfg props hmc _ hctor hmock hspy hnd
    subst hmc
    obtain ⟨x2, h1, -, h3, h4, -⟩ := setupMethods_install h name props
      (forEachEntries (.obj mcfg)) x1
      (by
        intro e he
        simp only [forEachEntries, ownProps, List.mem_map] at he
        obtain ⟨kv, hkv, rfl⟩ := he
        rw [hlen]
        exact hspy kv hkv)
      (by simpa [forEachEntries, ownProps, toKey, Function.comp_def] using hnd)
    have hstep : setupMock h (.obj mcfg, .str name) x1 = (.ok (), x2) := by
      simp only [setupMock, toKey, hin, if_true, isObjectForm, hctor, hread, hmock,
        Bool.not_false, h1]
    refine ⟨x2, hstep, (hrest x2 hstep).1, (hrest x2 hstep).2, by rw [h3, hget], ?_⟩
    intro kv hkv r hr
    exact h4 (kv.2, .str kv.1)
      (by simp only [forEachEntries, ownProps, List.mem_map]; exact ⟨kv, hkv, rfl⟩) r hr
  · intro r hmock hr hform
    rw [← hlen] at hr
    obtain ⟨call, hplan, hset⟩ := setSpyResult_spy h.isJasmine2 r mc x1 hr
    obtain ⟨c0, hc0⟩ := get?_of_lt x1.spies r hr
    have hstep : setupMock h (mc, .str name) x1 =
        (.ok (), { x1 with
          spies := updateCell r (fun c => { c with calls := c.calls ++ [call] }) x1.spies }) := by
      simp only [setupMock, toKey, hin, if_true, hform, hread, hmock, hset]
    refine ⟨_, { c0 with calls := c0.calls ++ [call] }, hstep, (hrest _ hstep).1,
      (hrest _ hstep).2, hget, ?_, ?_⟩
    · simp only [get?_updateCell_same, hc0, Option.map_some']
    · rw [plan_after_call, hplan]

theorem setupResults_installs_witness :
    (∃ x2, runPostEntry sampleHost (.setupResultsFn (.fn "config" 13 [])) svcExt = (.ok (), x2) ∧
      x2.get = svcExt.get ∧
      ∀ kv ∈ [("load", Val.num 1), ("store", Val.fn "fake" 9 [])], ∀ r,
        getKey kv.1 [("load", Val.spy 0), ("store", Val.spy 1)] = .spy r →
          ∃ c, x2.spies.get? r = some c ∧
            c.plan = if isFunction kv.2 then Plan.fake kv.2 else Plan.returns kv.2) ∧
    (∃ x2 c, runPostEntry firstHost (.setupResultsFn (.fn "config" 14 [])) fnExt = (.ok (), x2) ∧
      x2.get = fnExt.get ∧ x2.spies.get? 0 = some c ∧
      c.plan = if isFunction (.num 7) then Plan.fake (.num 7) else Plan.returns (.num 7)) := by
  constructor
  · obtain ⟨x2, -, -, h3, h4, h5⟩ :=
      (setupResults_installs sampleHost (.fn "config" 13 [])
        [("Svc", .obj [("load", .num 1), ("store", .fn "fake" 9 [])])] [] [] "Svc"
        (.obj [("load", .num 1), ("store", .fn "fake" 9 [])]) svcExt svcExt svcExt rfl
        (by decide) rfl rfl rfl).1
        [("load", .num 1), ("store", .fn "fake" 9 [])] [("load", .spy 0), ("store", .spy 1)]
        rfl (by decide) rfl rfl
        (by
          intro kv hkv
          simp only [List.mem_cons, List.mem_singleton, List.not_mem_nil, or_false] at hkv
          rcases hkv with rfl | rfl
          · exact ⟨rfl, 0, rfl, by decide⟩
          · exact ⟨rfl, 1, rfl, by decide⟩)
        (by simp [getKey])
    exact ⟨x2, h3 rfl, h4, h5⟩
  · obtain ⟨x2, c, -, -, h3, h4, h5, h6⟩ :=
      (setupResults_installs firstHost (.fn "config" 14 []) [("Fn", .num 7)] [] [] "Fn"
        (.num 7) fnExt fnExt fnExt rfl (by decide) rfl rfl rfl).2 0 rfl (by decide) rfl
    exact ⟨x2, c, h3 rfl, h4, h5, h6⟩

/-! ## Spy objects -/

theorem setKey_fresh (k : String) (v : Val) (p : Props) (hk : k ∉ keysOf p) :
    setKey k v p = p ++ [(k, v)] := by
  induction p with
  | nil => rfl
  | cons a rest ih =>
    obtain ⟨i, u⟩ := a
    simp only [keysOf, List.map_cons, List.mem_cons, not_or] at hk
    have hne : (i == k) = false := by simpa using fun h => hk.1 h.symm
    simp only [setKey, hne, Bool.false_eq_true, if_false, List.cons_append]
    rw [ih hk.2]

theorem keysOf_setKey (k : String) (v : Val) (p : Props) :
    keysOf (setKey k v p) = if hasKey k p then keysOf p else keysOf p ++ [k] := by
  induction p with
  | nil => simp [setKey, hasKey, keysOf]
  | cons a rest ih =>
    obtain ⟨i, u⟩ := a
    simp only [setKey, hasKey]
    by_cases hik : i = k
    · subst hik
      simp [keysOf]
    · have hne : (i == k) = false := by simpa using hik
      simp only [hne, Bool.false_eq_true, if_false, Bool.false_or]
      simp only [keysOf, List.map_cons] at ih ⊢
      rw [ih]
      split <;> simp

theorem nodup_setKey (k : String) (v : Val) (p : Props) (hp : (keysOf p).Nodup) :
    (keysOf (setKey k v p)).Nodup := by
  rw [keysOf_setKey]
  split
  · exact hp
  · next hk =>
    have : k ∉ keysOf p := fun h => hk ((hasKey_iff_mem k p).2 h)
    rw [List.nodup_append]
    exact ⟨hp, by simp, by
      intro a ha hb
      simp only [List.mem_singleton] at hb
      exact this (hb ▸ ha)⟩

theorem createSpies_fresh (b : String) (ks : List String) (o : Props) (x : Ext)
    (hnd : ks.Nodup) (hdis : ∀ k ∈ ks, k ∉ keysOf o) (hp : "__proto__" ∉ ks) :
    createSpies b (ks.map Val.str) o x =
      (o ++ (ks.enumFrom x.spies.length).map (fun ik => (ik.2, Val.spy ik.1)),
       { x with spies := x.spies ++
           ks.map (fun k => { identity := b ++ "." ++ k, calls := [], props := [] }) }) := by
  induction ks generalizing o x with
  | nil => simp [createSpies]
  | cons k ks ih =>
    rw [List.nodup_cons] at hnd
    have hk : k ≠ "__proto__" := fun e => hp (by rw [e]; exact List.mem_cons_self _ _)
    have hp1 : "__proto__" ∉ ks := fun e => hp (List.mem_cons_of_mem _ e)
    simp only [List.map_cons, createSpies, createSpy, toKey]
    rw [assign_eq_setKey _ _ _ hk, setKey_fresh k _ o (hdis k (List.mem_cons_self _ _))]
    rw [ih _ _ hnd.2 ?_ hp1]
    · simp [List.enumFrom_cons]
    · intro k1 hk1
      simp only [keysOf, List.map_append, List.map_cons, List.map_nil, List.mem_append,
        List.mem_singleton, not_or]
      refine ⟨hdis k1 (List.mem_cons_of_mem _ hk1), ?_⟩
      intro h
      exact hnd.1 (h ▸ hk1)

theorem keysOf_enum (ks : List String) (n : Nat) :
    keysOf ((ks.enumFrom n).map (fun ik => (ik.2, Val.spy ik.1))) = ks := by
  induction ks generalizing n with
  | nil => rfl
  | cons k ks ih =>
    simp only [keysOf, List.enumFrom_cons, List.map_cons] at ih ⊢
    rw [ih]

theorem getKey_enum (ks : List String) (n : Nat) (k : String) (hk : k ∈ ks) :
    ∃ i, i < ks.length ∧ ks.get? i = some k ∧
      getKey k ((ks.enumFrom n).map (fun ik => (ik.2, Val.spy ik.1))) = .spy (n + i) := by
  induction ks generalizing n with
  | nil => simp at hk
  | cons j ks ih =>
    by_cases hjk : j = k
    · subst hjk
      exact ⟨0, by simp, rfl, by simp [List.enumFrom_cons, getKey]⟩
    · have hk1 : k ∈ ks := by
        rcases List.mem_cons.1 hk with h | h
        · exact absurd h.symm hjk
        · exact h
      obtain ⟨i, h1, h2, h3⟩ := ih (n + 1) hk1
      refine ⟨i + 1, by simpa using h1, by simpa using h2, ?_⟩
      have hne : (j == k) = false := by simpa using hjk
      simp only [List.enumFrom_cons, List.map_cons, getKey, hne, Bool.false_eq_true, if_false]
      rw [h3]
      congr 1
      omega

theorem map_fst_indexed (l : List Val) (i : Nat) : (indexed i l).map Prod.fst = l := by
  induction l generalizing i with
  | nil => rfl
  | cons v rest ih => simp only [indexed, List.map_cons, ih]

theorem mem_keysOf_setKey (k j : String) (v : Val) (p : Props) :
    k ∈ keysOf (setKey j v p) ↔ k ∈ keysOf p ∨ k = j := by
  rw [keysOf_setKey]
  split
  · next hj =>
    have hjm : j ∈ keysOf p := (hasKey_iff_mem j p).1 hj
    constructor
    · intro h; exact Or.inl h
    · rintro (h | h)
      · exact h
      · exact h ▸ hjm
  · simp

theorem dollar_ne_proto (m : String) : "$" ++ m ≠ "__proto__" := by
  intro h
  have hd := congrArg String.data h
  simp only [String.data_append] at hd
  exact absurd (List.head_eq_of_cons_eq hd) (by decide)

theorem addToMethodList_str (acc : Props) (m : String) (hm : m ≠ "__proto__") :
    addToMethodList acc (.str m) =
      setKey ("$" ++ m) (.str ("$" ++ m)) (setKey m (.str m) acc) := by
  simp only [addToMethodList, toKey]
  rw [assign_eq_setKey _ _ _ (dollar_ne_proto m), assign_eq_setKey _ _ _ hm]

theorem methodList_nodup (ms : List String) (acc : Props) (hacc : (keysOf acc).Nodup)
    (hp : "__proto__" ∉ ms) :
    (keysOf ((ms.map Val.str).foldl addToMethodList acc)).Nodup := by
  induction ms generalizing acc with
  | nil => exact hacc
  | cons m ms ih =>
    have hm : m ≠ "__proto__" := fun e => hp (by rw [e]; exact List.mem_cons_self _ _)
    have hp1 : "__proto__" ∉ ms := fun e => hp (List.mem_cons_of_mem _ e)
    simp only [List.map_cons, List.foldl_cons]
    rw [addToMethodList_str _ _ hm]
    exact ih _ (nodup_setKey _ _ _ (nodup_setKey _ _ _ hacc)) hp1

theorem methodList_mem (ms : List String) (acc : Props) (k : String)
    (hp : "__proto__" ∉ ms) :
    k ∈ keysOf ((ms.map Val.str).foldl addToMethodList acc) ↔
      k ∈ keysOf acc ∨ k ∈ ms ∨ ∃ m ∈ ms, k = "$" ++ m := by
  induction ms generalizing acc with
  | nil => simp
  | cons m ms ih =>
    have hm : m ≠ "__proto__" := fun e => hp (by rw [e]; exact List.mem_cons_self _ _)
    have hp1 : "__proto__" ∉ ms := fun e => hp (List.mem_cons_of_mem _ e)
    simp only [List.map_cons, List.foldl_cons]
    rw [addToMethodList_str _ _ hm, ih _ hp1]
    simp only [mem_keysOf_setKey, List.mem_cons, or_and_right, exists_or, exists_eq_left]
    tauto

theorem allMethods_arr (ms : List String) :
    allMethods (.arr (ms.map Val.str)) =
      setKey "constructor" (.str "constructor") ((ms.map Val.str).foldl addToMethodList []) := by
  simp only [allMethods, forEachEntries, map_fst_indexed]
  exact assign_eq_setKey _ _ _ (by decide)

theorem allMethods_keys (ms : List String) (hp : "__proto__" ∉ ms) :
    (keysOf (allMethods (.arr (ms.map Val.str)))).Nodup ∧
    (∀ k, k ∈ keysOf (allMethods (.arr (ms.map Val.str))) ↔
      (k ∈ ms ∨ (∃ m ∈ ms, k = "$" ++ m) ∨ k = "constructor")) ∧
    "__proto__" ∉ keysOf (allMethods (.arr (ms.map Val.str))) := by
  have hmem : ∀ k, k ∈ keysOf (allMethods (.arr (ms.map Val.str))) ↔
      (k ∈ ms ∨ (∃ m ∈ ms, k = "$" ++ m) ∨ k = "constructor") := by
    intro k
    rw [allMethods_arr, mem_keysOf_setKey, methodList_mem _ _ _ hp]
    simp only [keysOf, List.map_nil, List.not_mem_nil, false_or]
    generalize (∃ m ∈ ms, k = "$" ++ m) = q
    tauto
  refine ⟨?_, hmem, ?_⟩
  · rw [allMethods_arr]
    exact nodup_setKey _ _ _ (methodList_nodup _ _ (by simp [keysOf]) hp)
  · intro hin
    rcases (hmem _).1 hin with h1 | ⟨m, -, h2⟩ | h3
    · exact hp h1
    · exact dollar_ne_proto m h2.symm
    · exact absurd h3 (by decide)

theorem createSpyObj_fresh (b : String) (ks : List String) (x : Ext)
    (hne : ks ≠ []) (hnd : ks.Nodup) (hp : "__proto__" ∉ ks) :
    createSpyObj b (.arr (ks.map Val.str)) x =
      (.ok (.obj ((ks.enumFrom x.spies.length).map (fun ik => (ik.2, Val.spy ik.1)))),
       { x with spies := x.spies ++
           ks.map (fun k => { identity := b ++ "." ++ k, calls := [], props := [] }) }) := by
  cases ks with
  | nil => exact absurd rfl hne
  | cons k ks =>
    have := createSpies_fresh b (k :: ks) [] x hnd (by simp [keysOf]) hp
    simp only [List.map_cons] at this
    simp only [List.map_cons, createSpyObj, this, List.nil_append]

theorem get?_new_cell (b : String) (ks : List String) (l : List SpyCell) (i : Nat) (k : String)
    (hk : ks.get? i = some k) :
    (l ++ ks.map (fun k => ({ identity := b ++ "." ++ k, calls := [], props := [] } : SpyCell))).get?
        (l.length + i) =
      some { identity := b ++ "." ++ k, calls := [], props := [] } := by
  simp only [List.get?_eq_getElem?] at hk ⊢
  rw [List.getElem?_append_right (by omega)]
  simp only [Nat.add_sub_cancel_left, List.getElem?_map, hk, Option.map_some']

theorem get?_updateCell_identity (ref r : Nat) (f : SpyCell → SpyCell) (l : List SpyCell)
    (c : SpyCell) (hf : ∀ c, (f c).identity = c.identity) (hc : l.get? r = some c) :
    ∃ c1, (updateCell ref f l).get? r = some c1 ∧ c1.identity = c.identity := by
  by_cases hr : r = ref
  · subst hr
    exact ⟨f c, by rw [get?_updateCell_same, hc]; rfl, hf c⟩
  · exact ⟨c, by rw [get?_updateCell_other _ _ _ _ hr, hc], rfl⟩

theorem createResourceMock_spec (h : Host) (provide : Bool) (name : String) (ms : List String)
    (x : Ext) (hp : "__proto__" ∉ ms)
    (hacc : provide = true → ∀ v, h.provide "value" name v = .ok ()) :
    ∃ (mock : Props) (rc : Nat) (x1 : Ext),
      createResourceMock h (.str name) (.arr (ms.map Val.str)) provide x =
        (.ok (.spy rc), x1) ∧
      (keysOf mock).Nodup ∧
      (∀ k, k ∈ keysOf mock ↔ (k ∈ ms ∨ (∃ m ∈ ms, k = "$" ++ m) ∨ k = "constructor")) ∧
      (∀ k ∈ keysOf mock, ∃ r c, getKey k mock = .spy r ∧ x.spies.length ≤ r ∧
        x1.spies.get? r = some c ∧ c.identity = name ++ "." ++ k) ∧
      getKey "constructor" mock = .spy rc ∧
      (∃ c, x1.spies.get? rc = some c ∧ c.plan = .fake (.ctorFake mock)) ∧
      x1.get = (if provide then assign name (.obj mock) x.get else x.get) ∧
      x1.provider =
        (if provide then x.provider ++ [.register "value" name (.spy rc)] else x.provider) ∧
      x1.templateCache = x.templateCache := by
  obtain ⟨hnd, hmem, hnp⟩ := allMethods_keys ms hp
  generalize hks : keysOf (allMethods (.arr (ms.map Val.str))) = ks at hnd hmem hnp
  have hc : "constructor" ∈ ks := (hmem _).2 (Or.inr (Or.inr rfl))
  have hne : ks ≠ [] := List.ne_nil_of_mem hc
  obtain ⟨i, hi, hki, hgi⟩ := getKey_enum ks x.spies.length "constructor" hc
  have hcell := get?_new_cell name ks x.spies i "constructor" hki
  have hobj := createSpyObj_fresh name ks x hne hnd hnp
  have hkeys := keysOf_enum ks x.spies.length
  have hspyOf : ∀ k ∈ ks, ∃ j, ks.get? j = some k ∧
      getKey k ((ks.enumFrom x.spies.length).map (fun ik => (ik.2, Val.spy ik.1))) =
        .spy (x.spies.length + j) := by
    intro k hk
    obtain ⟨j, -, h1, h2⟩ := getKey_enum ks x.spies.length k hk
    exact ⟨j, h1, h2⟩
  have hcellOf := fun j k => get?_new_cell name ks x.spies j k
  have hlen : x.spies.length + i < (x.spies ++ ks.map (fun k =>
      ({ identity := name ++ "." ++ k, calls := [], props := [] } : SpyCell))).length := by
    simp only [List.length_append, List.length_map]; omega
  generalize (ks.enumFrom x.spies.length).map (fun ik => (ik.2, Val.spy ik.1)) = mock
    at hgi hobj hkeys hspyOf
  generalize x.spies ++ ks.map (fun k =>
      ({ identity := name ++ "." ++ k, calls := [], props := [] } : SpyCell)) = cells
    at hcell hobj hcellOf hlen
  generalize hrc : x.spies.length + i = rc at hgi hcell hlen
  have hprov : provide = true → h.provide "value" name (.spy rc) = .ok () :=
    fun hpr => hacc hpr _
  have hrun : ∃ call x3, call.plan = Plan.fake (.ctorFake mock) ∧
      x3.spies = updateCell rc (fun c => { c with props := extend c.props [.obj mock] })
        (updateCell rc (fun c => { c with calls := c.calls ++ [call] }) cells) ∧
      x3.get = x.get ∧ x3.provider = x.provider ∧ x3.templateCache = x.templateCache ∧
      createResourceMock h (.str name) (.arr (ms.map Val.str)) provide x =
        (.ok (.spy rc),
          if provide then
            { x3 with provider := x3.provider ++ [.register "value" name (.spy rc)],
                      get := assign name (.obj mock) x3.get }
          else x3) := by
    cases hj : h.isJasmine2
    · refine ⟨.andCallFake (.ctorFake mock), { x with spies := updateCell rc (fun c => { c with props := extend c.props [.obj mock] }) (updateCell rc (fun c => { c with calls := c.calls ++ [SpyCall.andCallFake (.ctorFake mock)] }) cells) }, rfl, rfl, rfl, rfl, rfl, ?_⟩
      simp only [createResourceMock, toKey, hks, hobj, hgi, hj, SpyCall.isSecond,
        configureSpy, extendSpy, hlen, if_true, length_updateCell, Bool.false_eq_true, if_false,
        beq_self_eq_true]
      cases provide
      · simp
      · simp [hprov rfl]
    · refine ⟨.and_callFake (.ctorFake mock), { x with spies := updateCell rc (fun c => { c with props := extend c.props [.obj mock] }) (updateCell rc (fun c => { c with calls := c.calls ++ [SpyCall.and_callFake (.ctorFake mock)] }) cells) }, rfl, rfl, rfl, rfl, rfl, ?_⟩
      simp only [createResourceMock, toKey, hks, hobj, hgi, hj, SpyCall.isSecond,
        configureSpy, extendSpy, hlen, if_true, length_updateCell, beq_self_eq_true]
      cases provide
      · simp
      · simp [hprov rfl]
  obtain ⟨call, x3, hplan, hx3, hx3g, hx3p, hx3t, heq⟩ := hrun
  have hspies : (if provide then
      { x3 with provider := x3.provider ++ [.register "value" name (.spy rc)],
                get := assign name (.obj mock) x3.get }
      else x3).spies = x3.spies := by
    cases provide <;> rfl
  refine ⟨mock, rc, _, heq, ?_, ?_, ?_, hgi, ?_, ?_, ?_, ?_⟩
  · rw [hkeys]; exact hnd
  · intro k; rw [hkeys]; exact hmem k
  · intro k hk
    rw [hkeys] at hk
    obtain ⟨j, hkj, hgj⟩ := hspyOf k hk
    have hcellj := hcellOf j k hkj
    obtain ⟨c1, h1, h1i⟩ := get?_updateCell_identity rc (x.spies.length + j)
      (fun c => { c with calls := c.calls ++ [call] }) _ _ (fun _ => rfl) hcellj
    obtain ⟨c2, h2, h2i⟩ := get?_updateCell_identity rc (x.spies.length + j)
      (fun c => { c with props := extend c.props [.obj mock] }) _ _ (fun _ => rfl) h1
    refine ⟨_, c2, hgj, by omega, ?_, by rw [h2i, h1i]⟩
    rw [hspies, hx3]
    exact h2
  · refine ⟨{ identity := name ++ "." ++ "constructor", calls := [] ++ [call],
              props := extend [] [.obj mock] }, ?_, ?_⟩
    · rw [hspies, hx3]
      simp only [get?_updateCell_same, hcell, Option.map_some']
    · simp only [SpyCell.plan, List.nil_append, List.getLast?_singleton]
      exact hplan
  · cases provide <;> simp [hx3g]
  · cases provide <;> simp [hx3p]
  · cases provide <;> simp [hx3t]

/-! ## Resource mocks -/

theorem hasKey_delKey (k j : String) (p : Props) :
    hasKey k (delKey j p) = (hasKey k p && !(k == j)) := by
  induction p with
  | nil => simp [delKey, hasKey]
  | cons a rest ih =>
    obtain ⟨i, u⟩ := a
    simp only [delKey] at ih
    by_cases hij : i = j
    · subst hij
      simp only [delKey, List.filter_cons, beq_self_eq_true, Bool.not_true, Bool.false_eq_true,
        if_false, ih, hasKey]
      by_cases hik : i = k
      · subst hik; simp
      · have h1 : (i == k) = false := by simpa using hik
        simp [h1]
    · have h1 : (i == j) = false := by simpa using hij
      simp only [delKey, List.filter_cons, h1, Bool.not_false, if_true, hasKey, ih]
      by_cases hik : i = k
      · subst hik; simp [h1]
      · have h2 : (i == k) = false := by simpa using hik
        simp [h2]

theorem getKey_delKey (k j : String) (p : Props) (hkj : k ≠ j) :
    getKey k (delKey j p) = getKey k p := by
  induction p with
  | nil => rfl
  | cons a rest ih =>
    obtain ⟨i, u⟩ := a
    simp only [delKey] at ih
    by_cases hij : i = j
    · subst hij
      have h1 : (i == k) = false := by simpa using fun e => hkj e.symm
      simp only [delKey, List.filter_cons, beq_self_eq_true, Bool.not_true, Bool.false_eq_true,
        if_false, ih, getKey, h1]
    · have h1 : (i == j) = false := by simpa using hij
      simp only [delKey, List.filter_cons, h1, Bool.not_false, if_true, getKey, ih]

theorem extend_fresh (a b : Props) (ha : "__proto__" ∉ keysOf a) (hb : "__proto__" ∉ keysOf b) :
    extend [] [.obj a, .obj b] =
      delKey "$$hashKey"
        (b.foldl (fun g kv => setKey kv.1 kv.2 g) (a.foldl (fun g kv => setKey kv.1 kv.2 g) [])) := by
  have hc : ∀ (d p : Props), copyInto d (.obj p) = p.foldl (fun g kv => assign kv.1 kv.2 g) d := by
    intro d p
    simp only [copyInto, forEachEntries, ownProps, List.foldl_map, toKey]
  have ht : truthy (getKey "$$hashKey" []) = false := rfl
  simp only [extend, List.foldl_cons, List.foldl_nil, hc, setHashKey, ht, Bool.false_eq_true,
    if_false]
  rw [foldl_assign_eq a _ ha, foldl_assign_eq b _ hb]

theorem mem_of_hasKey (k : String) (p : Props) (hk : hasKey k p = true) :
    (k, getKey k p) ∈ p := by
  induction p with
  | nil => simp [hasKey] at hk
  | cons a rest ih =>
    obtain ⟨i, u⟩ := a
    by_cases hik : i = k
    · subst hik
      simp [getKey]
    · have hne : (i == k) = false := by simpa using hik
      simp only [hasKey, hne, Bool.false_or] at hk
      simp only [getKey, hne, Bool.false_eq_true, if_false]
      exact List.mem_cons_of_mem _ (ih hk)

/-- **C7, counterexample.** The claim gives the object returned by the
constructor every key of the payload, each with the value of the payload.
The constructor of `createResourceMock("Res", ["get"])()` applied to the
payload `{id: 1, $$hashKey: "object:3"}` returns an object with the keys `get`,
`$get`, `constructor` and `id` only: `angular.extend` ends by putting the key
`$$hashKey` back to what the destination had, and the destination `{}` had
none, so the key the payload brought is deleted. -/
theorem resource_constructor_counterexample :
    ∃ (ctor : Val) (x1 : Ext) (result : Props),
      createResourceMock sampleHost (.str "Res") (.arr [.str "get"]) false init.ext =
        (.ok ctor, x1) ∧
      callVal sampleHost ctor [.obj [("id", .num 1), ("$$hashKey", .str "object:3")]] x1 =
        (.ok (.obj result), x1) ∧
      hasKey "$$hashKey" [("id", Val.num 1), ("$$hashKey", Val.str "object:3")] = true ∧
      hasKey "$$hashKey" result = false ∧
      keysOf result = ["get", "$get", "constructor", "id"] :=
  ⟨.spy 2, _, _, rfl, rfl, rfl, rfl, rfl⟩

/-- **C7, amended.** Let the method names hold none of `length`, `forEach`,
`hasOwnProperty`, `__proto__`, let the payload be an ordinary object, and let
the provider (when a handle is passed) accept the registration of a value
under `name`.  Under either generation of the spy framework the function
returned by `createResourceMock(name, methodNames)` returns a constructor, and
the constructor applied to the payload returns an object whose keys are
exactly the keys other than `$$hashKey` among: each method name `m`, its
variant `$m`, `constructor`, and the keys of the payload.  Each such payload
key carries the value of the payload; every other key carries the spy the mock
holds under that name, the spy whose identity is `name.key`.  The constructor
is the spy the mock holds under `constructor`; with a provider handle the
provider receives that constructor as the value of `name`, and the registry
holds the mock under `name` unless `name` is `__proto__`.  In particular
`createResourceMock("Res", ["get"])()` called with `{id: 1}` gives an object
with `get`, `$get`, `constructor` and `id = 1`. -/
theorem resource_constructor (h : Host) (provide : Bool) (name : String)
    (ms : List String) (payload : Props) (x : Ext)
    (hms : ∀ k ∈ specialKeys, k ∉ ms) (hpay : ordinary payload)
    (hacc : provide = true → ∀ v, h.provide "value" name v = .ok ()) :
    (∃ (ctor : Val) (mock result : Props) (x1 : Ext),
      createResourceMock h (.str name) (.arr (ms.map Val.str)) provide x = (.ok ctor, x1) ∧
      callVal h ctor [.obj payload] x1 = (.ok (.obj result), x1) ∧
      (∀ k, hasKey k result = true ↔
        (k ≠ "$$hashKey" ∧
          (k ∈ ms ∨ (∃ m ∈ ms, k = "$" ++ m) ∨ k = "constructor" ∨
            hasKey k payload = true))) ∧
      (∀ k v, (k, v) ∈ payload → k ≠ "$$hashKey" → getKey k result = v) ∧
      (∀ k, k ≠ "$$hashKey" → hasKey k payload = false →
        (k ∈ ms ∨ (∃ m ∈ ms, k = "$" ++ m) ∨ k = "constructor") →
        ∃ r c, getKey k result = .spy r ∧ getKey k mock = .spy r ∧
          x1.spies.get? r = some c ∧ c.identity = name ++ "." ++ k) ∧
      ctor = getKey "constructor" mock ∧
      (provide = true →
        x1.provider = x.provider ++ [.register "value" name ctor] ∧
        (name ≠ "__proto__" → getKey name x1.get = .obj mock))) ∧
    (∃ x1, createResourceMock h (.str "Res") (.arr [.str "get"]) false init.ext =
        (.ok (.spy 2), x1) ∧
      callVal h (.spy 2) [.obj [("id", .num 1)]] x1 =
        (.ok (.obj [("get", .spy 0), ("$get", .spy 1), ("constructor", .spy 2),
          ("id", .num 1)]), x1)) := by
  refine ⟨?_, ?_⟩
  swap
  · obtain ⟨iJ, inj, fac, app, la, cl, mr, bi, pr, wr⟩ := h
    cases iJ
    · exact ⟨_, rfl, rfl⟩
    · exact ⟨_, rfl, rfl⟩
  have hp : "__proto__" ∉ ms := hms _ (by decide)
  have hpp : "__proto__" ∉ keysOf payload := hpay.2 _ (by decide)
  have hnd : (keysOf payload).Nodup := hpay.1
  obtain ⟨mock, rc, x1, heq, hnodup, hmem, hspies, hgc, ⟨c, hc, hplan⟩, hget, hprov, -⟩ :=
    createResourceMock_spec h provide name ms x hp hacc
  have hmp : "__proto__" ∉ keysOf mock := by
    intro hin
    rcases (hmem _).1 hin with h1 | ⟨m, -, h2⟩ | h3
    · exact hp h1
    · exact dollar_ne_proto m h2.symm
    · exact absurd h3 (by decide)
  have hcall : callVal h (.spy rc) [.obj payload] x1 =
      (.ok (.obj (extend [] [.obj mock, .obj payload])), x1) := by
    simp only [callVal, hc, hplan, List.headD_cons]
  rw [extend_fresh mock payload hmp hpp] at hcall
  have hmockGet : ∀ k, k ∈ keysOf mock →
      getKey k (mock.foldl (fun g kv => setKey kv.1 kv.2 g) []) = getKey k mock := by
    intro k hk
    exact getKey_foldl_present k _ mock [] (mem_of_hasKey k mock ((hasKey_iff_mem k mock).2 hk))
      hnodup
  refine ⟨.spy rc, mock, _, x1, heq, hcall, ?_, ?_, ?_, hgc.symm, ?_⟩
  · intro k
    rw [hasKey_delKey, hasKey_foldl, hasKey_foldl]
    simp only [hasKey, Bool.false_or, Bool.or_eq_true, Bool.and_eq_true, Bool.not_eq_true',
      beq_eq_false_iff_ne, ne_eq, hasKey_iff_mem k mock, hmem k]
    generalize (∃ m ∈ ms, k = "$" ++ m) = q
    tauto
  · intro k v hkv hk
    rw [getKey_delKey _ _ _ hk]
    exact getKey_foldl_present k v payload _ hkv hnd
  · intro k hkh hk hmk
    have hk1 : k ∉ keysOf payload := by
      intro hin
      rw [(hasKey_iff_mem k payload).2 hin] at hk
      exact Bool.noConfusion hk
    have hk2 : k ∈ keysOf mock := (hmem k).2 hmk
    obtain ⟨r, c1, h1, -, h3, h4⟩ := hspies k hk2
    refine ⟨r, c1, ?_, h1, h3, h4⟩
    rw [getKey_delKey _ _ _ hkh, getKey_foldl_absent k payload _ hk1, hmockGet k hk2, h1]
  · intro hpr
    refine ⟨?_, ?_⟩
    · rw [hprov, hpr]; rfl
    · intro hname
      rw [hget, hpr]
      simp only [if_true]
      rw [assign_eq_setKey _ _ _ hname]
      exact getKey_setKey_same name _ _

theorem resource_constructor_witness :
    (∀ k ∈ specialKeys, k ∉ ["get", "query"]) ∧
    ordinary [("id", Val.num 1), ("get", Val.str "own"), ("$$hashKey", Val.str "object:3")] ∧
    ∃ (ctor : Val) (mock result : Props) (x1 : Ext),
      createResourceMock firstHost (.str "Res") (.arr (["get", "query"].map Val.str)) true
        init.ext = (.ok ctor, x1) ∧
      callVal firstHost ctor
        [.obj [("id", .num 1), ("get", .str "own"), ("$$hashKey", .str "object:3")]] x1 =
        (.ok (.obj result), x1) ∧
      (∀ k, hasKey k result = true ↔
        (k ≠ "$$hashKey" ∧
          (k ∈ ["get", "query"] ∨ (∃ m ∈ ["get", "query"], k = "$" ++ m) ∨ k = "constructor" ∨
            hasKey k [("id", Val.num 1), ("get", Val.str "own"),
              ("$$hashKey", Val.str "object:3")] = true))) ∧
      (∀ k v, (k, v) ∈ [("id", Val.num 1), ("get", Val.str "own"),
          ("$$hashKey", Val.str "object:3")] → k ≠ "$$hashKey" → getKey k result = v) ∧
      (∀ k, k ≠ "$$hashKey" →
        hasKey k [("id", Val.num 1), ("get", Val.str "own"),
          ("$$hashKey", Val.str "object:3")] = false →
        (k ∈ ["get", "query"] ∨ (∃ m ∈ ["get", "query"], k = "$" ++ m) ∨ k = "constructor") →
        ∃ r c, getKey k result = .spy r ∧ getKey k mock = .spy r ∧
          x1.spies.get? r = some c ∧ c.identity = "Res" ++ "." ++ k) ∧
      ctor = getKey "constructor" mock ∧
      (true = true →
        x1.provider = init.ext.provider ++ [.register "value" "Res" ctor] ∧
        ("Res" ≠ "__proto__" → getKey "Res" x1.get = .obj mock)) :=
  ⟨by decide, by decide,
   (resource_constructor firstHost true "Res" ["get", "query"]
    [("id", .num 1), ("get", .str "own"), ("$$hashKey", .str "object:3")] init.ext
    (by decide) (by decide) (fun _ _ => rfl)).1⟩

/-! ## `mockServices` -/

theorem methodNames_of_props (props : Props) :
    ((props.map (fun kv => (kv.2, Val.str kv.1))).filter (fun vk => isFunction vk.1)).map
        Prod.snd = (functionNames props).map Val.str := by
  unfold functionNames
  induction props with
  | nil => rfl
  | cons a rest ih =>
    simp only [List.map_cons, List.filter_cons]
    cases isFunction a.2
    · simpa using ih
    · simpa using ih

theorem getMethodNames_obj (props : Props) :
    getMethodNames (.obj props) = .arr ((functionNames props).map Val.str) := by
  unfold getMethodNames
  rw [show isFunction (Val.obj props) = false from rfl]
  simp only [Bool.false_and, Bool.false_eq_true, if_false, forEachEntries, ownProps,
    methodNames_of_props]

theorem getMethodNames_resource (id : Nat) (props : Props) :
    getMethodNames (.fn "Resource" id props) =
      .arr ((functionNames (ownProps (.fn "Resource" id props))).map Val.str) := by
  unfold getMethodNames
  rw [show nameOf (Val.fn "Resource" id props) = .ok (.str "Resource") from rfl]
  have hcond : (isFunction (Val.fn "Resource" id props) &&
      !isResourceName (Val.str "Resource")) = false := rfl
  simp only [hcond, Bool.false_eq_true, if_false, forEachEntries, methodNames_of_props]

theorem getMethodNames_function (fname : String) (id : Nat) (props : Props)
    (hne : fname ≠ "Resource") : getMethodNames (.fn fname id props) = .undefined := by
  unfold getMethodNames
  rw [show nameOf (Val.fn fname id props) = .ok (.str fname) from rfl,
    show isFunction (Val.fn fname id props) = true from rfl]
  simp [isResourceName, hne]

theorem functionNames_sublist (props : Props) :
    (functionNames props).Sublist (keysOf props) :=
  List.Sublist.map _ (List.filter_sublist _)

theorem functionNames_nodup (props : Props) (hnd : (keysOf props).Nodup) :
    (functionNames props).Nodup :=
  List.Nodup.sublist (functionNames_sublist props) hnd

theorem saveMock_value (h : Host) (name : String) (mock : Val) (x : Ext)
    (hacc : h.provide "value" name mock = .ok ()) (hname : name ≠ "__proto__") :
    saveMock h (.str name) mock .undefined x =
      (.ok mock, { x with provider := x.provider ++ [.register "value" name mock],
                          get := setKey name mock x.get }) := by
  have hverb : providerVerbs.contains "value" = true := by decide
  have htr : truthy .undefined = false := rfl
  simp only [saveMock, htr, Bool.false_eq_true, if_false, toKey, hverb, if_true, hacc,
    assign_eq_setKey _ _ _ hname]

theorem mockService_step (h : Host) (get : Val → Except Err Val) (name : String)
    (nm service n : Val) (x : Ext)
    (hnm : nm = .str name ∨ ∃ extra, nm = .arr (.str name :: extra))
    (hfac : inFactories h name = false) (hget : get (.str name) = .ok service)
    (hname : nameOf service = .ok n) :
    mockService h get nm x =
      if isResourceName n then
        match createResourceMock h (.str name) (getMethodNames service) true x with
        | (.error e, x1) => (.error e, x1)
        | (.ok _, x1) => (.ok (), x1)
      else
        match createMock h (.str name) (getMethodNames service) true .undefined x with
        | (.error e, x1) => (.error e, x1)
        | (.ok _, x1) => (.ok (), x1) := by
  rcases hnm with rfl | ⟨extra, rfl⟩
  · simp only [mockService, toKey, hfac, Bool.false_eq_true, if_false, hget, hname]
  · simp only [mockService, List.headD_cons, toKey, hfac, Bool.false_eq_true, if_false, hget,
      hname]

theorem mockService_cases (h : Host) (get : Val → Except Err Val) (name : String)
    (nm service : Val) (x : Ext)
    (hnm : nm = .str name ∨ ∃ extra, nm = .arr (.str name :: extra))
    (hfac : inFactories h name = false) (hget : get (.str name) = .ok service)
    (hproto : name ≠ "__proto__") (hacc : ∀ v, h.provide "value" name v = .ok ()) :
    (∀ props, service = .obj props → isResourceName (getKey "name" props) = false →
      ordinary props → functionNames props ≠ [] →
      ∃ mock x1, mockService h get nm x = (.ok (), x1) ∧
        hasKey name x1.get = true ∧ getKey name x1.get = .obj mock ∧
        keysOf mock = functionNames props ∧
        (∀ k ∈ functionNames props, ∃ r c, getKey k mock = .spy r ∧ x.spies.length ≤ r ∧
          x1.spies.get? r = some c ∧ c.identity = name ++ "." ++ k) ∧
        x1.provider = x.provider ++ [.register "value" name (.obj mock)]) ∧
    (∀ fname id props, service = .fn fname id props → fname ≠ "Resource" →
      ∃ x1 c, mockService h get nm x = (.ok (), x1) ∧
        hasKey name x1.get = true ∧ getKey name x1.get = .spy x.spies.length ∧
        x1.spies.get? x.spies.length = some c ∧ c.identity = name ∧ c.props = [] ∧
        x1.provider = x.provider ++ [.register "value" name (.spy x.spies.length)]) ∧
    (∀ id props, (service = .fn "Resource" id props ∨
        (service = .obj props ∧ getKey "name" props = .str "Resource")) →
      ordinary (ownProps service) →
      ∃ mock rc x1, mockService h get nm x = (.ok (), x1) ∧
        hasKey name x1.get = true ∧ getKey name x1.get = .obj mock ∧
        (∀ k, k ∈ keysOf mock ↔ (k ∈ functionNames (ownProps service) ∨
          (∃ m ∈ functionNames (ownProps service), k = "$" ++ m) ∨ k = "constructor")) ∧
        (∀ k ∈ keysOf mock, ∃ r c, getKey k mock = .spy r ∧ x.spies.length ≤ r ∧
          x1.spies.get? r = some c ∧ c.identity = name ++ "." ++ k) ∧
        getKey "constructor" mock = .spy rc ∧
        (∃ c, x1.spies.get? rc = some c ∧ c.plan = .fake (.ctorFake mock)) ∧
        x1.provider = x.provider ++ [.register "value" name (.spy rc)]) ∧
    (∀ props, service = .obj props → isResourceName (getKey "name" props) = false →
      ordinary props → functionNames props = [] →
      mockService h get nm x =
        (.error (.error
          "createSpyObj requires a non-empty array of method names to create spies for"),
         x)) := by
  refine ⟨?_, ?_, ?_, ?_⟩
  · intro props hs hres hord hne
    subst hs
    have hfn := functionNames_nodup props hord.1
    have hpf : "__proto__" ∉ functionNames props := fun hin =>
      hord.2 _ (by decide) ((functionNames_sublist props).subset hin)
    rw [mockService_step h get name nm _ _ x hnm hfac hget rfl, hres, getMethodNames_obj]
    have hobj := createSpyObj_fresh name (functionNames props) x hne hfn hpf
    have hkeys := keysOf_enum (functionNames props) x.spies.length
    have hspyOf : ∀ k ∈ functionNames props, ∃ j, (functionNames props).get? j = some k ∧
        getKey k (((functionNames props).enumFrom x.spies.length).map
          (fun ik => (ik.2, Val.spy ik.1))) = .spy (x.spies.length + j) := by
      intro k hk
      obtain ⟨j, -, h1, h2⟩ := getKey_enum (functionNames props) x.spies.length k hk
      exact ⟨j, h1, h2⟩
    have hcellOf := fun j k => get?_new_cell name (functionNames props) x.spies j k
    generalize ((functionNames props).enumFrom x.spies.length).map
      (fun ik => (ik.2, Val.spy ik.1)) = mock at hobj hkeys hspyOf
    generalize x.spies ++ (functionNames props).map (fun k =>
      ({ identity := name ++ "." ++ k, calls := [], props := [] } : SpyCell)) = cells
      at hobj hcellOf
    refine ⟨mock, Ext.mk (setKey name (.obj mock) x.get)
      (x.provider ++ [.register "value" name (.obj mock)]) x.templateCache cells,
      ?_, ?_, ?_, hkeys, ?_, rfl⟩
    · simp only [Bool.false_eq_true, if_false, createMock, truthy, if_true, toKey, hobj,
        saveMock_value h name _ _ (hacc _) hproto]
    · simp [hasKey_setKey]
    · exact getKey_setKey_same _ _ _
    · intro k hk
      obtain ⟨j, hkj, hgj⟩ := hspyOf k hk
      exact ⟨_, _, hgj, by omega, hcellOf j k hkj, rfl⟩
  · intro fname id props hs hne
    subst hs
    rw [mockService_step h get name nm _ _ x hnm hfac hget rfl,
      getMethodNames_function _ _ _ hne]
    have hres : isResourceName (.str fname) = false := by simp [isResourceName, hne]
    refine ⟨Ext.mk (setKey name (.spy x.spies.length) x.get)
      (x.provider ++ [.register "value" name (.spy x.spies.length)]) x.templateCache
      (x.spies ++ [{ identity := name, calls := [], props := [] }]),
      { identity := name, calls := [], props := [] }, ?_, ?_, ?_, ?_, rfl, rfl, rfl⟩
    · simp only [hres, Bool.false_eq_true, if_false, createMock, truthy, createSpy, toKey,
        saveMock_value h name _ _ (hacc _) hproto, if_true]
    · simp [hasKey_setKey]
    · exact getKey_setKey_same _ _ _
    · simp
  · intro id props hs hord
    have hstep : mockService h get nm x =
        match createResourceMock h (.str name)
          (.arr ((functionNames (ownProps service)).map Val.str)) true x with
        | (.error e, x1) => (.error e, x1)
        | (.ok _, x1) => (.ok (), x1) := by
      rcases hs with hs | ⟨hs, hn⟩
      · subst hs
        rw [mockService_step h get name nm _ _ x hnm hfac hget rfl, getMethodNames_resource]
        rfl
      · subst hs
        rw [mockService_step h get name nm _ (.str "Resource") x hnm hfac hget
          (by simp only [nameOf, hn]), getMethodNames_obj]
        rfl
    have hpf : "__proto__" ∉ functionNames (ownProps service) := fun hin =>
      hord.2 _ (by decide) ((functionNames_sublist _).subset hin)
    obtain ⟨mock, rc, x1, heq, -, hmem, hsp, hgc, hplan, hg, hprov, -⟩ :=
      createResourceMock_spec h true name (functionNames (ownProps service)) x hpf
        (fun _ => hacc)
    refine ⟨mock, rc, x1, ?_, ?_, ?_, hmem, hsp, hgc, hplan, ?_⟩
    · rw [hstep, heq]
    · rw [hg]; simp [assign_eq_setKey _ _ _ hproto, hasKey_setKey]
    · rw [hg]; simp only [if_true]
      rw [assign_eq_setKey _ _ _ hproto]
      exact getKey_setKey_same _ _ _
    · rw [hprov]; rfl
  · intro props hs hres _ hemp
    subst hs
    rw [mockService_step h get name nm _ _ x hnm hfac hget rfl, hres, getMethodNames_obj, hemp]
    rfl

theorem mockServicesFn_step_ok (h : Host) (moduleName : Val) (get : Val → Except Err Val)
    (pre post : List Val) (nm : Val) (x x0 x1 : Ext) (hinj : h.injector moduleName = .ok get)
    (hpre : forEachM (mockService h get) pre x = (.ok (), x0))
    (hrun : mockService h get nm x0 = (.ok (), x1)) :
    runSetupEntry h moduleName (.mockServicesFn (pre ++ nm :: post)) x =
      forEachM (mockService h get) post x1 := by
  simp only [runSetupEntry, Mox.mockServicesFn, hinj]
  rw [forEachM_append_ok _ _ _ _ _ _ hpre]
  simp only [forEachM, hrun]

theorem mockServicesFn_step_error (h : Host) (moduleName : Val) (get : Val → Except Err Val)
    (pre post : List Val) (nm : Val) (x x0 x1 : Ext) (e : Err)
    (hinj : h.injector moduleName = .ok get)
    (hpre : forEachM (mockService h get) pre x = (.ok (), x0))
    (hrun : mockService h get nm x0 = (.error e, x1)) :
    runSetupEntry h moduleName (.mockServicesFn (pre ++ nm :: post)) x = (.error e, x1) := by
  simp only [runSetupEntry, Mox.mockServicesFn, hinj]
  rw [forEachM_append_ok _ _ _ _ _ _ hpre]
  exact forEachM_error_head _ _ _ _ _ _ hrun

/-- **C4**, as stated, fails: the real service `Fn` is a function that carries
a function-valued property `get`; the mock generated for it is a single
callable spy, not an object exposing `get`. -/
theorem mockServices_counterexample :
    ¬ ∀ (h : Host) (moduleName : Val) (get : Val → Except Err Val) (name : String)
        (service : Val) (x : Ext),
        inFactories h name = false → h.injector moduleName = .ok get →
        get (.str name) = .ok service → nameOf service ≠ .ok (.str "Resource") →
        ∃ x1 mock, runSetupEntry h moduleName (.mockServicesFn [.str name]) x = (.ok (), x1) ∧
          getKey name x1.get = .obj mock ∧
          keysOf mock = functionNames (ownProps service) := by
  intro hall
  obtain ⟨x1, mock, h1, h2, -⟩ := hall sampleHost (.str "app") sampleGet "Fn"
    (.fn "Fn" 3 [("get", .fn "get" 4 [])]) init.ext rfl rfl rfl (by simp [nameOf])
  have h3 : runSetupEntry sampleHost (.str "app") (.mockServicesFn [.str "Fn"]) init.ext =
      (.ok (), fnExt) := rfl
  rw [h3] at h1
  simp only [Prod.mk.injEq, true_and] at h1
  subst h1
  have h4 : getKey "Fn" fnExt.get = .spy 0 := rfl
  rw [h4] at h2
  exact Val.noConfusion h2

/-- **C4**, amended.  Let `mockServices` be called with any list of names, and
take any one of them, written as a bare string or as an array that starts with
the name, such that the callback has handled the names before it without a
throw; let the name be absent from `mox.factories` (own or inherited), other
than `__proto__`, resolved by the injector to a real service, and accepted by
the provider as the name of a value.  Then:

* if handling the name throws, the queued callback throws that error there and
  the names after it get no mock;
* when the service is an ordinary object, not named `Resource`, with at least
  one function-valued property, the callback generates an object that exposes
  exactly the names of those properties, each as a fresh spy `name.method`,
  gives it to the provider and records it in the Mock Registry under the name,
  and goes on with the names that follow;
* when the service is itself a function not named `Resource`, the mock is a
  single callable spy that exposes no method, whatever properties the
  function carries;
* when the service is named `Resource` (its properties ordinary), the mock
  recorded in the registry is the spy object that holds every function-valued
  name `m`, `$m` and `constructor`; the spy under `constructor` has as its fake
  the function that merges that mock with a payload, and it is that
  constructor the provider receives;
* when the service is an ordinary object without any function-valued
  property, no mock can be built: the callback throws the error of
  `createSpyObj`. -/
theorem mockServices_generates (h : Host) (moduleName : Val) (get : Val → Except Err Val)
    (names pre post : List Val) (nm : Val) (name : String) (service : Val) (x x0 : Ext)
    (hinj : h.injector moduleName = .ok get)
    (hnames : names = pre ++ nm :: post)
    (hnm : nm = .str name ∨ ∃ extra, nm = .arr (.str name :: extra))
    (hpre : forEachM (mockService h get) pre x = (.ok (), x0))
    (hfac : inFactories h name = false) (hget : get (.str name) = .ok service)
    (hproto : name ≠ "__proto__") (hacc : ∀ v, h.provide "value" name v = .ok ()) :
    (∀ e x1, mockService h get nm x0 = (.error e, x1) →
      runSetupEntry h moduleName (.mockServicesFn names) x = (.error e, x1)) ∧
    (∀ props, service = .obj props → isResourceName (getKey "name" props) = false →
      ordinary props → functionNames props ≠ [] →
      ∃ mock x1, mockService h get nm x0 = (.ok (), x1) ∧
        runSetupEntry h moduleName (.mockServicesFn names) x =
          forEachM (mockService h get) post x1 ∧
        hasKey name x1.get = true ∧ getKey name x1.get = .obj mock ∧
        keysOf mock = functionNames props ∧
        (∀ k ∈ functionNames props, ∃ r c, getKey k mock = .spy r ∧ x0.spies.length ≤ r ∧
          x1.spies.get? r = some c ∧ c.identity = name ++ "." ++ k) ∧
        x1.provider = x0.provider ++ [.register "value" name (.obj mock)]) ∧
    (∀ fname id props, service = .fn fname id props → fname ≠ "Resource" →
      ∃ x1 c, mockService h get nm x0 = (.ok (), x1) ∧
        runSetupEntry h moduleName (.mockServicesFn names) x =
          forEachM (mockService h get) post x1 ∧
        hasKey name x1.get = true ∧ getKey name x1.get = .spy x0.spies.length ∧
        x1.spies.get? x0.spies.length = some c ∧ c.identity = name ∧ c.props = [] ∧
        x1.provider = x0.provider ++ [.register "value" name (.spy x0.spies.length)]) ∧
    (∀ id props, (service = .fn "Resource" id props ∨
        (service = .obj props ∧ getKey "name" props = .str "Resource")) →
      ordinary (ownProps service) →
      ∃ mock rc x1, mockService h get nm x0 = (.ok (), x1) ∧
        runSetupEntry h moduleName (.mockServicesFn names) x =
          forEachM (mockService h get) post x1 ∧
        hasKey name x1.get = true ∧ getKey name x1.get = .obj mock ∧
        (∀ k, k ∈ keysOf mock ↔ (k ∈ functionNames (ownProps service) ∨
          (∃ m ∈ functionNames (ownProps service), k = "$" ++ m) ∨ k = "constructor")) ∧
        (∀ k ∈ keysOf mock, ∃ r c, getKey k mock = .spy r ∧ x0.spies.length ≤ r ∧
          x1.spies.get? r = some c ∧ c.identity = name ++ "." ++ k) ∧
        getKey "constructor" mock = .spy rc ∧
        (∃ c, x1.spies.get? rc = some c ∧ c.plan = .fake (.ctorFake mock)) ∧
        x1.provider = x0.provider ++ [.register "value" name (.spy rc)]) ∧
    (∀ props, service = .obj props → isResourceName (getKey "name" props) = false →
      ordinary props → functionNames props = [] →
      runSetupEntry h moduleName (.mockServicesFn names) x =
        (.error (.error
          "createSpyObj requires a non-empty array of method names to create spies for"),
         x0)) := by
  subst hnames
  obtain ⟨ha, hb, hc, hd⟩ := mockService_cases h get name nm service x0 hnm hfac hget hproto hacc
  refine ⟨?_, ?_, ?_, ?_, ?_⟩
  · intro e x1 hrun
    exact mockServicesFn_step_error h moduleName get pre post nm x x0 x1 e hinj hpre hrun
  · intro props h1 h2 h3 h4
    obtain ⟨mock, x1, hrun, rest⟩ := ha props h1 h2 h3 h4
    exact ⟨mock, x1, hrun,
      mockServicesFn_step_ok h moduleName get pre post nm x x0 x1 hinj hpre hrun, rest⟩
  · intro fname id props h1 h2
    obtain ⟨x1, c, hrun, rest⟩ := hb fname id props h1 h2
    exact ⟨x1, c, hrun,
      mockServicesFn_step_ok h moduleName get pre post nm x x0 x1 hinj hpre hrun, rest⟩
  · intro id props h1 h2
    obtain ⟨mock, rc, x1, hrun, rest⟩ := hc id props h1 h2
    exact ⟨mock, rc, x1, hrun,
      mockServicesFn_step_ok h moduleName get pre post nm x x0 x1 hinj hpre hrun, rest⟩
  · intro props h1 h2 h3 h4
    exact mockServicesFn_step_error h moduleName get pre post nm x x0 x0 _ hinj hpre
      (hd props h1 h2 h3 h4)

theorem mockServices_generates_witness :
    (∃ mock x1,
        runSetupEntry sampleHost (.str "app") (.mockServicesFn [.str "Fn", .str "Svc"])
          init.ext = (.ok (), x1) ∧
        hasKey "Svc" x1.get = true ∧ getKey "Svc" x1.get = .obj mock ∧
        keysOf mock = ["load", "store"] ∧
        x1.provider = fnExt.provider ++ [.register "value" "Svc" (.obj mock)]) ∧
    (∃ x1 c,
        runSetupEntry sampleHost (.str "app")
            (.mockServicesFn [.arr [.str "Fn", .num 1], .str "Svc"]) init.ext =
          forEachM (mockService sampleHost sampleGet) [.str "Svc"] x1 ∧
        hasKey "Fn" x1.get = true ∧ getKey "Fn" x1.get = .spy 0 ∧
        x1.spies.get? 0 = some c ∧ c.identity = "Fn" ∧ c.props = []) ∧
    (∃ mock rc x1,
        runSetupEntry sampleHost (.str "app")
            (.mockServicesFn [.str "Svc", .str "Res", .str "Fn"]) init.ext =
          forEachM (mockService sampleHost sampleGet) [.str "Fn"] x1 ∧
        hasKey "Res" x1.get = true ∧ getKey "Res" x1.get = .obj mock ∧
        (∀ k, k ∈ keysOf mock ↔ (k ∈ ["get", "query"] ∨
          (∃ m ∈ ["get", "query"], k = "$" ++ m) ∨ k = "constructor")) ∧
        getKey "constructor" mock = .spy rc ∧
        (∃ c, x1.spies.get? rc = some c ∧ c.plan = .fake (.ctorFake mock)) ∧
        x1.provider = svcExt.provider ++ [.register "value" "Res" (.spy rc)]) ∧
    runSetupEntry sampleHost (.str "app") (.mockServicesFn [.str "Data", .str "Svc"])
        init.ext =
      (.error (.error
        "createSpyObj requires a non-empty array of method names to create spies for"),
       init.ext) := by
  refine ⟨?_, ?_, ?_, ?_⟩
  · obtain ⟨mock, x1, -, h1, h2, h3, h4, -, h6⟩ :=
      (mockServices_generates sampleHost (.str "app") sampleGet [.str "Fn", .str "Svc"]
        [.str "Fn"] [] (.str "Svc") "Svc" _ init.ext fnExt rfl rfl (Or.inl rfl) rfl rfl rfl
        (by decide) (fun _ => rfl)).2.1
        [("load", .fn "load" 1 []), ("size", .num 2), ("store", .fn "store" 2 [])] rfl rfl
        (by decide) (by decide)
    exact ⟨mock, x1, h1, h2, h3, h4, h6⟩
  · obtain ⟨x1, c, -, h1, h2, h3, h4, h5, h6, -⟩ :=
      (mockServices_generates sampleHost (.str "app") sampleGet
        [.arr [.str "Fn", .num 1], .str "Svc"] [] [.str "Svc"] (.arr [.str "Fn", .num 1]) "Fn"
        _ init.ext init.ext rfl rfl (Or.inr ⟨_, rfl⟩) rfl rfl rfl (by decide)
        (fun _ => rfl)).2.2.1 "Fn" 3 [("get", .fn "get" 4 [])] rfl (by decide)
    exact ⟨x1, c, h1, h2, h3, h4, h5, h6⟩
  · obtain ⟨mock, rc, x1, -, h1, h2, h3, h4, -, h6, h7, h8⟩ :=
      (mockServices_generates sampleHost (.str "app") sampleGet
        [.str "Svc", .str "Res", .str "Fn"] [.str "Svc"] [.str "Fn"] (.str "Res") "Res" _
        init.ext svcExt rfl rfl (Or.inl rfl) rfl rfl rfl (by decide)
        (fun _ => rfl)).2.2.2.1 5 [("get", .fn "get" 6 []), ("query", .fn "query" 7 [])]
        (Or.inl rfl) (by decide)
    exact ⟨mock, rc, x1, h1, h2, h3, h4, h6, h7, h8⟩
  · exact (mockServices_generates sampleHost (.str "app") sampleGet [.str "Data", .str "Svc"]
        [] [.str "Svc"] (.str "Data") "Data" _ init.ext init.ext rfl rfl (Or.inl rfl) rfl rfl
        rfl (by decide) (fun _ => rfl)).2.2.2.2 [("size", .num 2)] rfl rfl (by decide) rfl

end Mox
